import Mathlib

/-!
# v2rayA service start-up (`service/pre.go`)

A shallow embedding of the start-up and background-update code of
`service/pre.go`: `checkEnvironment`, `migrate`, `initDBValue`, `initConfigure`,
`updateSubscriptions`, `initUpdatingTicker`, `checkUpdate` and `run`.

Sequential functions are functions from an explicit description of the outside
world (the answers of the collaborators that the Go code calls) to the list of
effects they perform and the way they end.  Goroutines communicating over
channels are step relations on an explicit state.
-/

namespace V2rayA

/-! ## Common vocabulary -/

/-- A Go `error` value: `none` is `nil`, `some msg` an error with text `msg`. -/
abbrev GoError := Option String

/-- How a modelled function ends. -/
inductive Outcome where
  /-- the function returns to its caller -/
  | returned : Outcome
  /-- the process ends through `os.Exit code` -/
  | exit (code : Int) : Outcome
  /-- the process ends through `log.Fatal format args...` -/
  | fatal (format : String) (args : List String) : Outcome
  /-- the goroutine panics -/
  | panic (msg : String) : Outcome
  deriving DecidableEq, Repr

/-- Whether the outcome is a fatal termination (`log.Fatal`). -/
def Outcome.isFatal : Outcome → Bool
  | .fatal _ _ => true
  | _ => false

/-- Substitution of the arguments for the `%v` verbs of a format, left to
right, on character lists. -/
def substV : List Char → List String → List Char
  | [], _ => []
  | [c], _ => [c]
  | c :: d :: rest, args =>
    if c = '%' ∧ d = 'v' then
      match args with
      | [] => c :: d :: substV rest []
      | a :: as => a.data ++ substV rest as
    else c :: substV (d :: rest) args

/-- The text of a fatal message: the format with its `%v` verbs filled in; the
empty string for an outcome that is not fatal. -/
def Outcome.message : Outcome → String
  | .fatal format args => ⟨substV format.data args⟩
  | _ => ""

/-! ## `checkEnvironment` -/

/-- The fields of `conf.GetEnvironmentConfig()` that `pre.go` reads. -/
structure EnvironmentConfig where
  PassCheckRoot : Bool
  ResetPassword : Bool
  Address : String
  Config : String
  deriving Repr

/-- The owner of a socket, as `socket.Process()` returns it; `PID` is the
text that the verb `%v` prints for `process.PID`. -/
structure Process where
  Name : String
  PID : String
  deriving Repr

/-- A socket returned by `ports.IsPortOccupied`; `Process` is the result of
calling `socket.Process()` on it. -/
structure Socket where
  Process : Except String Process

/-- Everything `checkEnvironment` reads from outside. -/
structure PreflightWorld where
  /-- the value of `runtime.GOOS` -/
  GOOS : String
  /-- the value of `conf.GetEnvironmentConfig()` -/
  conf : EnvironmentConfig
  /-- the value of `os.Getegid()` -/
  egid : Int
  /-- the result of `configure.ResetAccounts()` -/
  resetAccounts : GoError
  /-- the function `net.SplitHostPort` -/
  splitHostPort : String → Except String (String × String)
  /-- the function `ports.IsPortOccupied` -/
  isPortOccupied : List String → Bool × List Socket × GoError

/-- Effects of the preflight check. -/
inductive PreflightEvent where
  | println (s : String) : PreflightEvent
  | scanf : PreflightEvent
  | resetAccounts : PreflightEvent
  deriving DecidableEq, Repr

/-- The format of the fatal message of the privilege check. -/
def rootMessage : String :=
  "Please execute this program with sudo or as a root user for the best experience.\n" ++
  "If you don't want to run as root, use the --passcheckroot parameter to skip the check.\n" ++
  "For example:\n" ++
  "$ v2raya --passcheckroot --config ~/.config/v2raya"

/-- The format of the fatal message of the port check. -/
def portMessage : String := "Port %v is occupied by %v/%v"

/-- The loop `for _, socket := range sockets` of `checkEnvironment`: the first
socket whose owner resolves ends the process, the others are passed over. -/
def socketLoop (port : String) : List Socket → Outcome
  | [] => .returned
  | socket :: rest =>
    match socket.Process with
    | .ok process => .fatal portMessage [port, process.Name, process.PID]
    | .error _ => socketLoop port rest

/-- The function `checkEnvironment`. -/
def checkEnvironment (w : PreflightWorld) : List PreflightEvent × Outcome :=
  if w.GOOS = "windows" then
    ([.println "v2rayA cannot run on windows", .println "Press any key to continue...", .scanf],
      .exit 1)
  else
    let conf := w.conf
    if (!conf.PassCheckRoot || conf.ResetPassword) && w.egid != 0 then
      ([], .fatal rootMessage [])
    else if conf.ResetPassword then
      match w.resetAccounts with
      | some err => ([.resetAccounts], .fatal "checkEnvironment: %v" [err])
      | none => ([.resetAccounts, .println "It will work after you restart v2rayA"], .exit 0)
    else
      match w.splitHostPort conf.Address with
      | .error err => ([], .fatal "checkEnvironment: %v" [err])
      | .ok (_, v2rayAListeningPort) =>
        match w.isPortOccupied [v2rayAListeningPort ++ ":tcp"] with
        | (occupied, sockets, err) =>
          if occupied then
            match err with
            | some e => ([], .fatal "netstat:" [e])
            | none => ([], socketLoop v2rayAListeningPort sockets)
          else ([], .returned)

/-- The privilege check of `checkEnvironment` ended the process. -/
def killedByPrivilegeCheck (w : PreflightWorld) : Bool :=
  (checkEnvironment w).2 == .fatal rootMessage []

/-- The owner that the socket loop reports: the first one that resolves. -/
def firstOwner (sockets : List Socket) : Option Process :=
  sockets.findSome? (fun s => match s.Process with | .ok p => some p | .error _ => none)

/-! ## `migrate`, `initDBValue`, `initConfigure` -/

/-- A decoded `configure.Configure`; its content is not inspected here. -/
structure Configure where
  raw : String
  deriving DecidableEq, Repr

/-- Everything `initConfigure` reads from outside. -/
structure BootstrapWorld where
  /-- the value of `conf.GetEnvironmentConfig().Config` -/
  confPath : String
  /-- the function `path.Dir` -/
  pathDir : String → String
  /-- the function `path.Join` on two elements -/
  pathJoin : String → String → String
  /-- the error result of `os.Stat` -/
  stat : String → GoError
  /-- the function `os.IsNotExist` -/
  isNotExist : GoError → Bool
  /-- the value of `configure.IsConfigureNotExists()` -/
  isConfigureNotExists : Bool
  /-- the function `os.ReadFile` -/
  readFile : String → Except String String
  /-- decoding with `jsoniter.Unmarshal` into a `configure.Configure` -/
  unmarshal : String → Except String Configure
  /-- the function `configure.SetConfigure` -/
  setConfigure : Configure → GoError
  /-- the value of `configure.New()` -/
  newConfigure : Configure
  /-- the value of `asset.GetV2rayConfigPath()` -/
  v2rayConfigPath : String
  /-- the value of `v2ray.Template{}.ToConfigBytes()` -/
  templateBytes : String
  /-- the result of `where.GetV2rayBinPath()` -/
  v2rayBinPath : Except String String
  /-- the value of `asset.IsGeoipExists()` -/
  isGeoipExists : Bool
  /-- the value of `asset.IsGeositeExists()` -/
  isGeositeExists : Bool
  /-- the value of `asset.GetV2rayLocationAsset()` -/
  locationAsset : String
  /-- the function `http.Get` followed by `io.ReadAll` of the body: `.error`
  on the left for a failed request, on the right for a failed read -/
  httpGet : String → Except String (Except String String)
  /-- the value of `gjson.GetBytes(b, "0.name").String()` -/
  firstTagName : String → String
  /-- the function `gopeed.Down` -/
  download : String → String → GoError
  /-- the function `os.Chmod` with mode 0755 -/
  chmod : String → GoError

/-- Effects of the bootstrap configurator. -/
inductive BootEvent where
  | registerFuzzyDecoders : BootEvent
  | mkdirAll (path : String) : BootEvent
  | logInfo (format : String) (args : List String) : BootEvent
  | logWarn (format : String) (args : List String) : BootEvent
  | readFile (path : String) : BootEvent
  | unmarshal (bytes : String) : BootEvent
  | newConfigure : BootEvent
  | setConfigure (cfg : Configure) (err : GoError) : BootEvent
  | writeV2rayConfig (bytes : String) : BootEvent
  | println (s : String) : BootEvent
  | httpGet (url : String) : BootEvent
  | closeBody : BootEvent
  | download (url path : String) : BootEvent
  | chmod (path : String) : BootEvent
  | rename (src dst : String) : BootEvent
  deriving DecidableEq, Repr

/-- The body of `migrate`, before the deferred log call. -/
def migrateBody (w : BootstrapWorld) (jsonConfPath : String) : List BootEvent × GoError :=
  match w.readFile jsonConfPath with
  | .error e => ([.readFile jsonConfPath], some e)
  | .ok b =>
    match w.unmarshal b with
    | .error e => ([.readFile jsonConfPath, .unmarshal b], some e)
    | .ok cfg =>
      match w.setConfigure cfg with
      | some e => ([.readFile jsonConfPath, .unmarshal b, .setConfigure cfg (some e)], some e)
      | none => ([.readFile jsonConfPath, .unmarshal b, .setConfigure cfg none], none)

/-- The function `migrate`: its effects and the error it returns. -/
def migrate (w : BootstrapWorld) (jsonConfPath : String) : List BootEvent × GoError :=
  let body := migrateBody w jsonConfPath
  let deferred : BootEvent :=
    match body.2 with
    | some e => .logWarn "Migrating failed: %v" [e]
    | none => .logInfo "Migrating complete" []
  (.logInfo "Migrating json to nutsdb..." [] :: (body.1 ++ [deferred]), body.2)

/-- The function `initDBValue`. -/
def initDBValue (w : BootstrapWorld) : List BootEvent × Outcome :=
  match w.setConfigure w.newConfigure with
  | some e =>
    ([.logInfo "init DB" [], .newConfigure, .setConfigure w.newConfigure (some e)],
      .fatal "initDBValue: %v" [e])
  | none =>
    ([.logInfo "init DB" [], .newConfigure, .setConfigure w.newConfigure none], .returned)

/-- The slice `camp` of `initConfigure`: the legacy files, in the order in
which they are tried. -/
def camp (w : BootstrapWorld) : List String :=
  [w.pathJoin (w.pathDir w.confPath) "v2raya.json", "/etc/v2ray/v2raya.json",
    "/etc/v2raya/v2raya.json"]

/-- The loop `for _, jsonConfPath := range camp` of `initConfigure`: its
effects and the final value of `success`. -/
def migrateLoop (w : BootstrapWorld) : List String → List BootEvent × Bool
  | [] => ([], false)
  | jsonConfPath :: rest =>
    match w.stat jsonConfPath with
    | none =>
      let m := migrate w jsonConfPath
      match m.2 with
      | none => (.logInfo "migrate from %v" [jsonConfPath] :: m.1, true)
      | some _ =>
        let r := migrateLoop w rest
        (.logInfo "migrate from %v" [jsonConfPath] :: (m.1 ++ r.1), r.2)
    | some _ => migrateLoop w rest

/-- The closure `dld` of `initConfigure`. -/
def dld (w : BootstrapWorld) (repo filename localname : String) : List BootEvent × GoError :=
  let p := w.locationAsset ++ "/" ++ filename
  let url := "https://api.github.com/repos/" ++ repo ++ "/tags"
  match w.httpGet url with
  | .error e => ([.println ("installing " ++ filename), .httpGet url], some e)
  | .ok (.error e) => ([.println ("installing " ++ filename), .httpGet url, .closeBody], some e)
  | .ok (.ok b) =>
    let tag := w.firstTagName b
    let u := "https://cdn.jsdelivr.net/gh/" ++ repo ++ "@" ++ tag ++ "/" ++ filename
    match w.download u p with
    | some e =>
      ([.println ("installing " ++ filename), .httpGet url, .download u p, .closeBody],
        some ("download<" ++ p ++ ">: " ++ e))
    | none =>
      match w.chmod p with
      | some e =>
        ([.println ("installing " ++ filename), .httpGet url, .download u p, .chmod p, .closeBody],
          some ("chmod: " ++ e))
      | none =>
        ([.println ("installing " ++ filename), .httpGet url, .download u p, .chmod p,
          .rename p (w.locationAsset ++ "/" ++ localname), .closeBody], none)

/-- The part of `initConfigure` after the configuration store is set up: the
default engine configuration file and the data assets. -/
def initAssets (w : BootstrapWorld) : List BootEvent :=
  (match w.stat w.v2rayConfigPath with
    | some _ => [BootEvent.writeV2rayConfig w.templateBytes]
    | none => []) ++
  (match w.v2rayBinPath with
    | .ok _ =>
      if !w.isGeoipExists || !w.isGeositeExists then
        let a := dld w "v2rayA/dist-geoip" "geoip.dat" "geoip.dat"
        let b := dld w "v2rayA/dist-domain-list-community" "dlc.dat" "geosite.dat"
        a.1 ++
        (match a.2 with
          | some e => [BootEvent.logWarn "initConfigure: v2rayA/dist-geoip: %v" [e]]
          | none => []) ++
        b.1 ++
        (match b.2 with
          | some e => [BootEvent.logWarn "initConfigure: v2rayA/dist-domain-list-community: %v" [e]]
          | none => [])
      else []
    | .error _ => [])

/-- The function `initConfigure`. -/
def initConfigure (w : BootstrapWorld) : List BootEvent × Outcome :=
  let start : List BootEvent :=
    .registerFuzzyDecoders ::
      (if w.isNotExist (w.stat w.confPath) then [.mkdirAll (w.pathDir w.confPath)] else [])
  if w.isConfigureNotExists then
    let loop := migrateLoop w (camp w)
    if !loop.2 then
      match initDBValue w with
      | (evs, .returned) => (start ++ loop.1 ++ evs ++ initAssets w, .returned)
      | (evs, out) => (start ++ loop.1 ++ evs, out)
    else (start ++ loop.1 ++ initAssets w, .returned)
  else (start ++ initAssets w, .returned)

/-- The files on which `migrate` was called, in order: `migrate` reads its
file first and nothing else reads a file. -/
def migrationAttempts (trace : List BootEvent) : List String :=
  trace.filterMap (fun e => match e with | .readFile p => some p | _ => none)

/-- Whether `configure.New()` was called. -/
def newCalled (trace : List BootEvent) : Bool :=
  trace.contains .newConfigure

/-- The call `configure.SetConfigure(configure.New())` in a trace: the
configuration that was passed and the error that was returned, for the first
call of `configure.New()` that a call of `configure.SetConfigure` follows
directly; `none` when there is no such call. -/
def seeding : List BootEvent → Option (Configure × GoError)
  | [] => none
  | e :: rest =>
    match e, rest with
    | .newConfigure, .setConfigure cfg err :: _ => some (cfg, err)
    | _, _ => seeding rest

/-- The defaults were stored: `configure.SetConfigure` was called on the value
of `configure.New()` and returned `nil`. -/
def defaultsSeeded (w : BootstrapWorld) (trace : List BootEvent) : Bool :=
  seeding trace == some (w.newConfigure, none)

/-- The legacy file exists: `os.Stat` on it returns no error. -/
def fileExists (w : BootstrapWorld) (p : String) : Bool := (w.stat p).isNone

/-- The call `migrate(p)` returns no error. -/
def migrates (w : BootstrapWorld) (p : String) : Bool := (migrate w p).2.isNone

/-! ## `initUpdatingTicker`, `checkUpdate` -/

/-- The constants of package `configure` that `checkUpdate` compares with.
The package is not among the sources at hand, so their values are taken as
given. -/
structure ConfigureConsts where
  AutoUpdate : String
  AutoUpdateAtIntervals : String
  TransparentGfwlist : String
  GfwlistMode : String
  CustomMode : String

/-- The fields of `service.GetSetting()` that `checkUpdate` reads. -/
structure Setting where
  GFWListAutoUpdateMode : String
  GFWListAutoUpdateIntervalHour : Int
  SubscriptionAutoUpdateMode : String
  SubscriptionAutoUpdateIntervalHour : Int
  Transparent : String
  RulePortMode : String
  deriving Repr

/-- An `int64` result: the two's complement value of an integer. -/
def wrap64 (x : Int) : Int :=
  (x + 9223372036854775808) % 18446744073709551616 - 9223372036854775808

/-- The constant `time.Second`, in nanoseconds. -/
def Second : Int := 1000000000

/-- The constant `time.Hour`, in nanoseconds. -/
def Hour : Int := 3600 * Second

/-- The expression `time.Duration(h) * time.Hour`: a product of `int64`. -/
def hours (h : Int) : Int := wrap64 (h * Hour)

/-- The expression `24 * time.Hour * 365 * 100`. -/
def placeholderPeriod : Int := wrap64 (24 * Hour * 365 * 100)

/-- The two tickers of package `conf`. -/
inductive TickerId where
  | TickerUpdateGFWList : TickerId
  | TickerUpdateSubscription : TickerId
  deriving DecidableEq, Repr

/-- The goroutines that the scheduler starts. -/
inductive Task where
  /-- the loop `for range conf.TickerUpdateGFWList.C` -/
  | gfwTickerLoop : Task
  /-- the loop `for range conf.TickerUpdateSubscription.C` -/
  | subscriptionTickerLoop : Task
  /-- the one call of `gfwlist.CheckAndUpdateGFWList` -/
  | ruleListUpdate : Task
  /-- the call `go updateSubscriptions()` -/
  | updateSubscriptions : Task
  /-- the version check and its weekly repetition -/
  | versionCheck : Task
  deriving DecidableEq, Repr

/-- Effects of `checkUpdate`. -/
inductive UpdateEvent where
  | getSetting : UpdateEvent
  | checkAndStopTransparentProxy : UpdateEvent
  | lookupHost (host : String) : UpdateEvent
  | logWarn (msg : String) : UpdateEvent
  | sleep (d : Int) : UpdateEvent
  | newTicker (t : TickerId) (d : Int) : UpdateEvent
  | reset (t : TickerId) (d : Int) : UpdateEvent
  | go (task : Task) : UpdateEvent
  deriving DecidableEq, Repr

/-- The state of the scheduler: the effects so far, the period of each ticker
(`none` while the variable is `nil`), and the panic that stopped it, if any. -/
structure Sched where
  events : List UpdateEvent
  TickerUpdateGFWList : Option Int
  TickerUpdateSubscription : Option Int
  panicked : Option String
  deriving Repr

/-- The period of a ticker. -/
def Sched.period (s : Sched) : TickerId → Option Int
  | .TickerUpdateGFWList => s.TickerUpdateGFWList
  | .TickerUpdateSubscription => s.TickerUpdateSubscription

/-- Assignment to one of the two ticker variables. -/
def Sched.setPeriod (s : Sched) (t : TickerId) (d : Int) : Sched :=
  match t with
  | .TickerUpdateGFWList => { s with TickerUpdateGFWList := some d }
  | .TickerUpdateSubscription => { s with TickerUpdateSubscription := some d }

/-- One more effect. -/
def Sched.emit (s : Sched) (e : UpdateEvent) : Sched :=
  { s with events := s.events ++ [e] }

/-- Sequencing: nothing runs after a panic. -/
def Sched.andThen (s : Sched) (f : Sched → Sched) : Sched :=
  if s.panicked.isSome then s else f s

/-- The call `time.NewTicker(d)` assigned to a ticker variable; it panics for
a period that is not positive. -/
def newTicker (t : TickerId) (d : Int) (s : Sched) : Sched :=
  if d ≤ 0 then { s with panicked := some "non-positive interval for NewTicker" }
  else (s.emit (.newTicker t d)).setPeriod t d

/-- The call `ticker.Reset(d)`; it panics for a period that is not positive
and for a ticker that was never created. -/
def tickerReset (t : TickerId) (d : Int) (s : Sched) : Sched :=
  match s.period t with
  | none => { s with panicked := some "invalid memory address or nil pointer dereference" }
  | some _ =>
    if d ≤ 0 then { s with panicked := some "non-positive interval for Ticker.Reset" }
    else (s.emit (.reset t d)).setPeriod t d

/-- The function `initUpdatingTicker`. -/
def initUpdatingTicker (s : Sched) : Sched :=
  ((((newTicker .TickerUpdateGFWList placeholderPeriod s).andThen
    (newTicker .TickerUpdateSubscription placeholderPeriod)).andThen
    (fun s => s.emit (.go .gfwTickerLoop))).andThen
    (fun s => s.emit (.go .subscriptionTickerLoop)))

/-- The rule-list part of `checkUpdate`. -/
def checkGFWList (k : ConfigureConsts) (setting : Setting) (s : Sched) : Sched :=
  if setting.GFWListAutoUpdateMode = k.AutoUpdate ∨
      setting.GFWListAutoUpdateMode = k.AutoUpdateAtIntervals ∨
      setting.Transparent = k.TransparentGfwlist then
    (if setting.GFWListAutoUpdateMode = k.AutoUpdateAtIntervals then
        tickerReset .TickerUpdateGFWList (hours setting.GFWListAutoUpdateIntervalHour) s
      else s).andThen
      (fun s =>
        if setting.RulePortMode = k.GfwlistMode then s.emit (.go .ruleListUpdate)
        else if setting.RulePortMode = k.CustomMode then s
        else s)
  else s

/-- The subscription part of `checkUpdate`. -/
def checkSubscriptions (k : ConfigureConsts) (setting : Setting) (s : Sched) : Sched :=
  if setting.SubscriptionAutoUpdateMode = k.AutoUpdate ∨
      setting.SubscriptionAutoUpdateMode = k.AutoUpdateAtIntervals then
    (if setting.SubscriptionAutoUpdateMode = k.AutoUpdateAtIntervals then
        tickerReset .TickerUpdateSubscription (hours setting.SubscriptionAutoUpdateIntervalHour) s
      else s).andThen
      (fun s => s.emit (.go .updateSubscriptions))
  else s

/-- A result of `resolv.LookupHost` lets the loop of `checkUpdate` end:
`err == nil && len(addrs) > 0`. -/
def lookupReady (r : List String × GoError) : Bool :=
  r.2.isNone && decide (r.1.length > 0)

/-- The loop of `checkUpdate` that waits for the network. `lookupHost n` is
the result of the call number `n` of `resolv.LookupHost`, `n` the number of
calls made so far, and `fuel` bounds the number of iterations: `none` when
the loop has not ended within `fuel` iterations. -/
def networkGate (lookupHost : Nat → List String × GoError) : Nat → Nat → Option (List UpdateEvent)
  | 0, _ => none
  | fuel + 1, n =>
    if lookupReady (lookupHost n) then some [.lookupHost "apple.com"]
    else
      (networkGate lookupHost fuel (n + 1)).map
        (fun rest =>
          [.lookupHost "apple.com", .logWarn "waiting for network connected",
            .sleep (5 * Second)] ++ rest)

/-- Everything `checkUpdate` reads from outside. -/
structure UpdateWorld where
  /-- the value of `service.GetSetting()` -/
  setting : Setting
  /-- the results of the successive calls of `resolv.LookupHost("apple.com")` -/
  lookupHost : Nat → List String × GoError

/-- The part of `checkUpdate` after the loop that waits for the network. -/
def checkUpdateAfterGate (k : ConfigureConsts) (setting : Setting) (s : Sched) : Sched :=
  ((((initUpdatingTicker (s.emit (.logWarn "network is connected"))).andThen
    (checkGFWList k setting)).andThen
    (checkSubscriptions k setting)).andThen
    (fun s => s.emit (.go .versionCheck)))

/-- The function `checkUpdate`: `none` when the loop that waits for the
network has not ended within `fuel` iterations. -/
def checkUpdate (k : ConfigureConsts) (w : UpdateWorld) (fuel : Nat) : Option Sched :=
  match networkGate w.lookupHost fuel 0 with
  | none => none
  | some gate =>
    some (checkUpdateAfterGate k w.setting
      { events := [.getSetting, .checkAndStopTransparentProxy] ++ gate,
        TickerUpdateGFWList := none, TickerUpdateSubscription := none, panicked := none })

/-- The number of `Reset` calls on a ticker. -/
def resetCount (t : TickerId) (events : List UpdateEvent) : Nat :=
  events.countP (fun e => match e with | .reset u _ => u == t | _ => false)

/-- The number of goroutines started for a task. -/
def spawnCount (task : Task) (events : List UpdateEvent) : Nat :=
  events.count (.go task)

/-- The number of calls of `resolv.LookupHost`. -/
def lookupCount (events : List UpdateEvent) : Nat :=
  events.countP (fun e => match e with | .lookupHost _ => true | _ => false)

/-- The number of waits of five seconds. -/
def waitCount (events : List UpdateEvent) : Nat :=
  events.count (.sleep 5000000000)

/-- The number of calls of `time.Sleep`, of any length. -/
def sleepCount (events : List UpdateEvent) : Nat :=
  events.countP (fun e => match e with | .sleep _ => true | _ => false)

/-- The effects of the waiting loop when the first `k` lookups fail and the
next one succeeds: `k` rounds of lookup, warning and wait, then one lookup. -/
def gateTrace : Nat → List UpdateEvent
  | 0 => [.lookupHost "apple.com"]
  | k + 1 =>
    [.lookupHost "apple.com", .logWarn "waiting for network connected", .sleep (5 * Second)] ++
      gateTrace k

/-- The effects of `initUpdatingTicker`. -/
def tickerTrace : List UpdateEvent :=
  [.newTicker .TickerUpdateGFWList placeholderPeriod,
    .newTicker .TickerUpdateSubscription placeholderPeriod,
    .go .gfwTickerLoop, .go .subscriptionTickerLoop]

/-- Lookup results that fail twice and then succeed. -/
def failFailSucceed : Nat → List String × GoError
  | 0 => ([], some "no such host")
  | 1 => ([], none)
  | _ => (["17.253.144.10"], none)

/-- The state of the scheduler when `checkUpdate` starts. -/
def Sched.start : Sched :=
  { events := [], TickerUpdateGFWList := none, TickerUpdateSubscription := none,
    panicked := none }

/-- The largest number of hours whose nanoseconds fit in an `int64`. -/
def maxHours : Int := 2562047

/-- A network that is there at the first lookup. -/
def online : Nat → List String × GoError := fun _ => (["17.253.144.10"], none)

/-- Rule-list updates every 6 hours, subscription updates every 12 hours. -/
def intervalSetting : Setting where
  GFWListAutoUpdateMode := "auto_update_at_intervals"
  GFWListAutoUpdateIntervalHour := 6
  SubscriptionAutoUpdateMode := "auto_update_at_intervals"
  SubscriptionAutoUpdateIntervalHour := 12
  Transparent := "close"
  RulePortMode := "gfwlist"

/-- Rule-list updates every 2562048 hours: one hour more than an `int64` of
nanoseconds holds. -/
def overflowSetting : Setting where
  GFWListAutoUpdateMode := "auto_update_at_intervals"
  GFWListAutoUpdateIntervalHour := 2562048
  SubscriptionAutoUpdateMode := "none"
  SubscriptionAutoUpdateIntervalHour := 0
  Transparent := "close"
  RulePortMode := "gfwlist"

/-- Rule-list updates switched on, with the default routing rule `whitelist`. -/
def whitelistSetting : Setting where
  GFWListAutoUpdateMode := "auto_update"
  GFWListAutoUpdateIntervalHour := 0
  SubscriptionAutoUpdateMode := "none"
  SubscriptionAutoUpdateIntervalHour := 0
  Transparent := "close"
  RulePortMode := "whitelist"

/-- Rule-list updates at intervals of 0 hours. -/
def zeroSetting : Setting where
  GFWListAutoUpdateMode := "auto_update_at_intervals"
  GFWListAutoUpdateIntervalHour := 0
  SubscriptionAutoUpdateMode := "none"
  SubscriptionAutoUpdateIntervalHour := 0
  Transparent := "close"
  RulePortMode := "gfwlist"

/-- What is looked at in the final state of `checkUpdate`: the panic, the
number of resets of the rule-list timer and its period. -/
def gfwTimerSummary (r : Option Sched) : Option (Option String × Nat × Option Int) :=
  r.map (fun s => (s.panicked, resetCount .TickerUpdateGFWList s.events, s.TickerUpdateGFWList))

/-- An assignment of distinct values to the constants of package `configure`. -/
def sampleConsts : ConfigureConsts where
  AutoUpdate := "auto_update"
  AutoUpdateAtIntervals := "auto_update_at_intervals"
  TransparentGfwlist := "gfwlist"
  GfwlistMode := "gfwlist"
  CustomMode := "custom"

/-! ## `run` -/

/-- Everything the sequential code of `run` reads from outside. -/
structure RunWorld where
  /-- the value of `configure.GetRunning()` -/
  getRunning : Bool
  /-- the result of `v2ray.UpdateV2RayConfig()` -/
  updateV2RayConfig : GoError
  /-- the value read by `<-errch` -/
  received : GoError
  /-- the function `v2ray.StopV2rayService` -/
  stopV2rayService : Bool → GoError
  /-- the result of `db.DB().Close()` -/
  dbClose : GoError

/-- The two goroutines that `run` starts. -/
inductive Writer where
  /-- the goroutine `errch <- router.Run()` -/
  | apiService : Writer
  /-- the goroutine that waits for a signal and then does `errch <- nil` -/
  | signalListener : Writer
  deriving DecidableEq, Repr

/-- Effects of `run`. -/
inductive RunEvent where
  | updateV2RayConfig : RunEvent
  | logError (format : String) (args : List String) : RunEvent
  | makeChan : RunEvent
  | go (task : Writer) : RunEvent
  | receive : RunEvent
  | println (s : String) : RunEvent
  | checkAndStopTransparentProxy : RunEvent
  | stopV2rayService (force : Bool) : RunEvent
  | dbClose : RunEvent
  deriving DecidableEq, Repr

/-- How `run` ends: it returns `err`, or the process ends in `log.Fatal`. -/
inductive RunResult where
  | returns (err : GoError) : RunResult
  | fatal (format : String) (args : List String) : RunResult
  deriving DecidableEq, Repr

/-- The function `run`. -/
def run (w : RunWorld) : List RunEvent × RunResult :=
  let start : List RunEvent :=
    if w.getRunning then
      match w.updateV2RayConfig with
      | some e => [.updateV2RayConfig, .logError "failed to start v2ray-core: %v" [e]]
      | none => [.updateV2RayConfig]
    else []
  let wait : List RunEvent := [.makeChan, .go .apiService, .go .signalListener, .receive]
  match w.received with
  | some e => (start ++ wait, .fatal "run: %v" [e])
  | none =>
    (start ++ wait ++
      [.println "Quitting...", .checkAndStopTransparentProxy, .stopV2rayService false, .dbClose],
      .returns none)

/-- The shutdown steps among the effects of `run`, in order: stopping the
transparent proxy, stopping the engine (with any `force`), closing the
storage. -/
def shutdownSteps (trace : List RunEvent) : List RunEvent :=
  trace.filter (fun e =>
    match e with
    | .checkAndStopTransparentProxy => true
    | .stopV2rayService _ => true
    | .dbClose => true
    | _ => false)

/-- A start where the engine does not start and every shutdown step fails,
ended by a signal. -/
def failingWorld : RunWorld where
  getRunning := true
  updateV2RayConfig := some "exit status 23"
  received := none
  stopV2rayService := fun _ => some "no such process"
  dbClose := some "database is closed"

/-! ## The channel `errch` of `run` -/

/-- Where a writer of `errch` is. -/
inductive WriterPc where
  /-- before its send: inside `router.Run()`, or waiting in `<-sigs` -/
  | running : WriterPc
  /-- at `errch <- v`, waiting for a receiver -/
  | sending (v : GoError) : WriterPc
  /-- past its send: the goroutine has ended -/
  | done : WriterPc
  deriving DecidableEq, Repr

/-- Where the coordinator (the goroutine of `run`) is. -/
inductive CoordPc where
  /-- at `<-errch` (or on its way there) -/
  | receiving : CoordPc
  /-- has read `v` from `errch` -/
  | received (v : GoError) : CoordPc
  /-- has read `nil`, shut down and returned `nil` -/
  | returned : CoordPc
  /-- has read the error `e` and ended the process with `log.Fatal` -/
  | exited (e : String) : CoordPc
  deriving DecidableEq, Repr

/-- The state of the three goroutines around the channel `errch`, which is
made with `make(chan error)` and so has no buffer. -/
structure ChanState where
  apiService : WriterPc
  signalListener : WriterPc
  coordinator : CoordPc
  deriving DecidableEq, Repr

/-- The goroutines that take steps. -/
inductive Actor where
  | writer (w : Writer) : Actor
  | coordinator : Actor
  deriving DecidableEq, Repr

/-- The program counter of a writer. -/
def ChanState.writer (s : ChanState) : Writer → WriterPc
  | .apiService => s.apiService
  | .signalListener => s.signalListener

/-- Assignment to the program counter of a writer. -/
def ChanState.setWriter (s : ChanState) (w : Writer) (pc : WriterPc) : ChanState :=
  match w with
  | .apiService => { s with apiService := pc }
  | .signalListener => { s with signalListener := pc }

/-- The value that the coordinator has read from `errch`, if any. -/
def ChanState.delivered (s : ChanState) : Option GoError :=
  match s.coordinator with
  | .receiving => none
  | .received v => some v
  | .returned => some none
  | .exited e => some (some e)

/-- The process is still there: `log.Fatal` has not ended it. -/
def ChanState.alive (s : ChanState) : Bool :=
  match s.coordinator with
  | .exited _ => false
  | _ => true

/-- The value a writer sends: the API service sends the result `apiResult` of
`router.Run()`, the signal listener sends `nil`. -/
def sentValue (apiResult : GoError) : Writer → GoError
  | .apiService => apiResult
  | .signalListener => none

/-- One step of one goroutine; `none` when the goroutine cannot move (it is
blocked or has ended). A writer moves from `running` to its send when
`router.Run()` returns, respectively when a signal arrives; its send completes
only together with the receive of the coordinator, since the channel has no
buffer; the coordinator, once it has read a value, goes on to `log.Fatal` or
to the shutdown and `return nil`, and never reads again. -/
def chanStep (apiResult : GoError) (a : Actor) (s : ChanState) : Option ChanState :=
  if s.alive then
    match a with
    | .writer w =>
      match s.writer w with
      | .running => some (s.setWriter w (.sending (sentValue apiResult w)))
      | .sending v =>
        match s.coordinator with
        | .receiving => some { s.setWriter w .done with coordinator := .received v }
        | _ => none
      | .done => none
    | .coordinator =>
      match s.coordinator with
      | .received (some e) => some { s with coordinator := .exited e }
      | .received none => some { s with coordinator := .returned }
      | _ => none
  else none

/-- The state in which `run` has started both goroutines. -/
def ChanState.init : ChanState :=
  { apiService := .running, signalListener := .running, coordinator := .receiving }

/-- Running a schedule: the goroutines step in the given order; `none` when
one of them cannot take its step. -/
def chanExec (apiResult : GoError) : List Actor → ChanState → Option ChanState
  | [], s => some s
  | a :: rest, s =>
    match chanStep apiResult a s with
    | some t => chanExec apiResult rest t
    | none => none

/-- The states that some schedule reaches from the start. -/
def ChanReachable (apiResult : GoError) (s : ChanState) : Prop :=
  ∃ schedule, chanExec apiResult schedule ChanState.init = some s

/-- The number of writers whose send has completed. -/
def ChanState.completedWrites (s : ChanState) : Nat :=
  (if s.apiService = .done then 1 else 0) + (if s.signalListener = .done then 1 else 0)

/-- Exactly the write that the coordinator has read has completed. -/
def chanInv (s : ChanState) : Prop :=
  s.completedWrites = if s.delivered.isSome then 1 else 0

/-- The state after a signal has arrived and been read by the coordinator, and
then `router.Run()` has returned `nil`: the API service is at its send. -/
def lateWriter : ChanState :=
  { apiService := .sending none, signalListener := .done, coordinator := .received none }

/-! ## `updateSubscriptions` -/

/-- An element of `configure.GetSubscriptions()`. -/
structure Subscription where
  Address : String
  deriving DecidableEq, Repr

/-- Everything `updateSubscriptions` reads from outside. -/
structure PoolWorld where
  /-- the value of `configure.GetSubscriptions()` -/
  subs : List Subscription
  /-- the function `service.UpdateSubscription` -/
  updateSubscription : Nat → Bool → GoError

/-- Where the goroutine of `updateSubscriptions` itself is. -/
inductive MainPc where
  /-- at the test `i < lenSubs` of the loop -/
  | loop (i : Nat) : MainPc
  /-- past `wg.Add(1)`, at the `go` statement -/
  | spawn (i : Nat) : MainPc
  /-- at `wg.Wait()` -/
  | wait : MainPc
  /-- has returned -/
  | returned : MainPc
  deriving DecidableEq, Repr

/-- Where a worker goroutine is. -/
inductive WorkerPc where
  /-- at `control <- struct{}{}` -/
  | acquire : WorkerPc
  /-- holds a slot, at the call of `service.UpdateSubscription(i, false)` -/
  | call : WorkerPc
  /-- inside `service.UpdateSubscription(i, false)` -/
  | refreshing : WorkerPc
  /-- has logged the result, at `wg.Done()` -/
  | signal : WorkerPc
  /-- at `<-control` -/
  | release : WorkerPc
  /-- has ended -/
  | finished : WorkerPc
  deriving DecidableEq, Repr

/-- A worker goroutine: the argument `i` it was started with and where it is. -/
structure Worker where
  i : Nat
  pc : WorkerPc
  deriving DecidableEq, Repr

/-- The two log lines of a worker. -/
inductive PoolLog where
  | failed (i : Nat) (err : String) : PoolLog
  | complete (i : Nat) (address : String) : PoolLog
  deriving DecidableEq, Repr

/-- The state of `updateSubscriptions`: its goroutines in the order in which
they were started, the number of elements in the buffer of `control` (which
holds 2), the counter of the wait group, the calls of
`service.UpdateSubscription` made so far (index and `forced`), the indices
whose call has returned, the log, and whether some goroutine has panicked. -/
structure PoolState where
  main : MainPc
  workers : List Worker
  control : Nat
  wg : Nat
  calls : List (Nat × Bool)
  completed : List Nat
  logs : List PoolLog
  panicked : Bool
  deriving DecidableEq, Repr

/-- The goroutines of `updateSubscriptions`: itself and the workers, numbered
in the order in which they were started. -/
inductive PoolActor where
  | main : PoolActor
  | worker (j : Nat) : PoolActor
  deriving DecidableEq, Repr

/-- The capacity of the channel `control`. -/
def controlCap : Nat := 2

/-- One step of the goroutine of `updateSubscriptions`. -/
def mainStep (w : PoolWorld) (s : PoolState) : Option PoolState :=
  match s.main with
  | .loop i =>
    if i < w.subs.length then some { s with wg := s.wg + 1, main := .spawn i }
    else some { s with main := .wait }
  | .spawn i =>
    some { s with workers := s.workers ++ [{ i := i, pc := .acquire }], main := .loop (i + 1) }
  | .wait => if s.wg = 0 then some { s with main := .returned } else none
  | .returned => none

/-- One step of the worker number `j`. -/
def workerStep (w : PoolWorld) (j : Nat) (s : PoolState) : Option PoolState :=
  match s.workers[j]? with
  | none => none
  | some wk =>
    match wk.pc with
    | .acquire =>
      if s.control < controlCap then
        some { s with control := s.control + 1, workers := s.workers.set j { wk with pc := .call } }
      else none
    | .call =>
      some { s with calls := s.calls ++ [(wk.i, false)],
                    workers := s.workers.set j { wk with pc := .refreshing } }
    | .refreshing =>
      match w.updateSubscription wk.i false with
      | some err =>
        some { s with completed := s.completed ++ [wk.i],
                      logs := s.logs ++ [.failed wk.i err],
                      workers := s.workers.set j { wk with pc := .signal } }
      | none =>
        match w.subs[wk.i]? with
        | some sub =>
          some { s with completed := s.completed ++ [wk.i],
                        logs := s.logs ++ [.complete wk.i sub.Address],
                        workers := s.workers.set j { wk with pc := .signal } }
        | none => some { s with completed := s.completed ++ [wk.i], panicked := true }
    | .signal =>
      if s.wg = 0 then some { s with panicked := true }
      else some { s with wg := s.wg - 1, workers := s.workers.set j { wk with pc := .release } }
    | .release =>
      if 0 < s.control then
        some { s with control := s.control - 1,
                      workers := s.workers.set j { wk with pc := .finished } }
      else none
    | .finished => none

/-- One step of one goroutine; `none` when it cannot move: it is blocked, it
has ended, it was not started, or the process has panicked. -/
def poolStep (w : PoolWorld) (a : PoolActor) (s : PoolState) : Option PoolState :=
  if s.panicked then none
  else
    match a with
    | .main => mainStep w s
    | .worker j => workerStep w j s

/-- The state at the entry of the loop of `updateSubscriptions`. -/
def PoolState.init : PoolState :=
  { main := .loop 0, workers := [], control := 0, wg := 0, calls := [], completed := [],
    logs := [], panicked := false }

/-- Running a schedule: the goroutines step in the given order; `none` when
one of them cannot take its step. -/
def poolExec (w : PoolWorld) : List PoolActor → PoolState → Option PoolState
  | [], s => some s
  | a :: rest, s =>
    match poolStep w a s with
    | some t => poolExec w rest t
    | none => none

/-- A worker holds a slot of `control`: it is between its send on `control`
and its receive from it. -/
def WorkerPc.holding : WorkerPc → Bool
  | .call => true
  | .refreshing => true
  | .signal => true
  | .release => true
  | _ => false

/-- A worker has not yet called `wg.Done()`. -/
def WorkerPc.pending : WorkerPc → Bool
  | .acquire => true
  | .call => true
  | .refreshing => true
  | .signal => true
  | _ => false

/-- A worker has called `service.UpdateSubscription`. -/
def WorkerPc.called : WorkerPc → Bool
  | .acquire => false
  | .call => false
  | _ => true

/-- The call of `service.UpdateSubscription` of a worker has returned. -/
def WorkerPc.refreshed : WorkerPc → Bool
  | .acquire => false
  | .call => false
  | .refreshing => false
  | _ => true

/-- The number of workers between acquiring and releasing a slot. -/
def PoolState.inFlight (s : PoolState) : Nat :=
  s.workers.countP (fun wk => wk.pc.holding)

/-- The number of workers inside `service.UpdateSubscription`. -/
def PoolState.refreshing (s : PoolState) : Nat :=
  s.workers.countP (fun wk => wk.pc == .refreshing)

/-- The goroutine of `updateSubscriptions` has called `wg.Add(1)` for a worker
it has not started yet. -/
def MainPc.added : MainPc → Nat
  | .spawn _ => 1
  | _ => 0

/-- The number of steps a worker still has to take. -/
def WorkerPc.remaining : WorkerPc → Nat
  | .acquire => 5
  | .call => 4
  | .refreshing => 3
  | .signal => 2
  | .release => 1
  | .finished => 0

/-- The number of steps the goroutine of `updateSubscriptions` still has to
take, with those of the workers it has not started yet. -/
def MainPc.remaining (n : Nat) : MainPc → Nat
  | .loop i => 7 * (n - i) + 2
  | .spawn i => 7 * (n - i) + 1
  | .wait => 1
  | .returned => 0

/-- The number of steps that are left in a state. -/
def poolMeasure (w : PoolWorld) (s : PoolState) : Nat :=
  s.main.remaining w.subs.length + (s.workers.map (fun wk => wk.pc.remaining)).sum

/-- The invariant of `updateSubscriptions`. -/
structure PoolInv (w : PoolWorld) (s : PoolState) : Prop where
  /-- no goroutine has panicked -/
  running : s.panicked = false
  /-- the worker number `j` was started with the argument `j` -/
  args : ∀ (j : Nat) (wk : Worker), s.workers[j]? = some wk → wk.i = j
  /-- at the loop test with counter `i`, `i` workers have been started -/
  atLoop : ∀ i, s.main = .loop i → s.workers.length = i ∧ i ≤ w.subs.length
  /-- at the `go` statement with counter `i`, `i` workers have been started -/
  atSpawn : ∀ i, s.main = .spawn i → s.workers.length = i ∧ i < w.subs.length
  /-- after the loop all workers have been started -/
  atWait : s.main = .wait → s.workers.length = w.subs.length
  /-- after `wg.Wait()` all workers have been started and the counter is 0 -/
  atReturned : s.main = .returned → s.workers.length = w.subs.length ∧ s.wg = 0
  /-- the buffer of `control` holds one element for each worker between its
  send and its receive, and at most 2 -/
  slots : s.control = s.inFlight ∧ s.control ≤ controlCap
  /-- the counter of the wait group counts the workers before `wg.Done()` -/
  counter : s.wg = s.workers.countP (fun wk => wk.pc.pending) + s.main.added
  /-- a worker past its call has made exactly one call, the others none -/
  callsOnce : ∀ (j : Nat) (wk : Worker), s.workers[j]? = some wk →
    s.calls.count (j, false) = if wk.pc.called then 1 else 0
  /-- every call is that of a worker, with `forced = false` -/
  callsKnown : ∀ x ∈ s.calls, x.2 = false ∧ x.1 < s.workers.length
  /-- the call of a worker has returned exactly once when the worker is past
  it, and not at all before -/
  doneOnce : ∀ (j : Nat) (wk : Worker), s.workers[j]? = some wk →
    s.completed.count j = if wk.pc.refreshed then 1 else 0
  /-- every call that has returned is that of a worker -/
  doneKnown : ∀ x ∈ s.completed, x < s.workers.length

/-- Three subscriptions, of which the second cannot be refreshed. -/
def threeSubs : PoolWorld where
  subs := [{ Address := "https://a.example/sub" }, { Address := "https://b.example/sub" },
    { Address := "https://c.example/sub" }]
  updateSubscription := fun i _ => if i = 1 then some "timeout" else none

/-- All three workers are started and the first two hold the two slots. -/
def twoInFlight : List PoolActor :=
  [.main, .main, .main, .main, .main, .main, .worker 0, .worker 1, .worker 0]

/-- A schedule of `updateSubscriptions` with three subscriptions that runs to
its return: the workers are started, the workers 0 and 1 take the slots, the
worker 2 gets the slot that the worker 1 gives back. -/
def fullRun : List PoolActor :=
  [.main, .main, .main, .main, .main, .main, .main,
    .worker 0, .worker 1, .worker 1, .worker 1, .worker 1, .worker 1,
    .worker 2, .worker 2, .worker 0, .worker 0, .worker 2, .worker 2, .worker 0,
    .main]

/-- The state of `updateSubscriptions` with three subscriptions after the
schedule `twoInFlight`. -/
def twoInFlightState : PoolState :=
  (poolExec threeSubs twoInFlight PoolState.init).getD PoolState.init

/-- The final state of `checkUpdate` for `intervalSetting` on a network that
is there. -/
def intervalRun : Sched :=
  (checkUpdate sampleConsts ⟨intervalSetting, online⟩ 1).getD Sched.start

/-- The state of `updateSubscriptions` with three subscriptions after the
schedule `fullRun`. -/
def fullRunState : PoolState :=
  (poolExec threeSubs fullRun PoolState.init).getD PoolState.init

/-- A first start with no stored configuration and no legacy file, on a
store that cannot be written. -/
def brokenStoreWorld : BootstrapWorld where
  confPath := "/home/u/.config/v2raya"
  pathDir := fun _ => "/home/u/.config"
  pathJoin := fun d f => d ++ "/" ++ f
  stat := fun _ => some "no such file or directory"
  isNotExist := fun e => e.isSome
  isConfigureNotExists := true
  readFile := fun _ => .error "no such file or directory"
  unmarshal := fun b => .ok { raw := b }
  setConfigure := fun _ => some "disk full"
  newConfigure := { raw := "defaults" }
  v2rayConfigPath := "/etc/v2ray/config.json"
  templateBytes := "\x7b\x7d"
  v2rayBinPath := .error "not found"
  isGeoipExists := true
  isGeositeExists := true
  locationAsset := "/usr/share/v2ray"
  httpGet := fun _ => .error "offline"
  firstTagName := fun _ => ""
  download := fun _ _ => none
  chmod := fun _ => none

/-- A first start with no stored configuration, where of the three legacy
files only `/etc/v2ray/v2raya.json` exists, and it decodes and is stored. -/
def legacyWorld : BootstrapWorld where
  confPath := "/home/u/.config/v2raya"
  pathDir := fun _ => "/home/u/.config"
  pathJoin := fun d f => d ++ "/" ++ f
  stat := fun p => if p = "/etc/v2ray/v2raya.json" then none else some "no such file or directory"
  isNotExist := fun e => e.isSome
  isConfigureNotExists := true
  readFile := fun _ => .ok "\x7b\x7d"
  unmarshal := fun b => .ok { raw := b }
  setConfigure := fun _ => none
  newConfigure := { raw := "" }
  v2rayConfigPath := "/etc/v2ray/config.json"
  templateBytes := "\x7b\x7d"
  v2rayBinPath := .error "not found"
  isGeoipExists := true
  isGeositeExists := true
  locationAsset := "/usr/share/v2ray"
  httpGet := fun _ => .error "offline"
  firstTagName := fun _ => ""
  download := fun _ _ => none
  chmod := fun _ => none

/-- A process without root, started with `--passcheckroot --reset-password`. -/
def resetWorld : PreflightWorld where
  GOOS := "linux"
  conf := { PassCheckRoot := true, ResetPassword := true, Address := "0.0.0.0:2017",
            Config := "/etc/v2raya" }
  egid := 1000
  resetAccounts := none
  splitHostPort := fun _ => .ok ("0.0.0.0", "2017")
  isPortOccupied := fun _ => (false, [], none)

/-- A process whose listening port 2017 is taken by a socket whose owner
cannot be read. -/
def hiddenOwnerWorld : PreflightWorld where
  GOOS := "linux"
  conf := { PassCheckRoot := true, ResetPassword := false, Address := "0.0.0.0:2017",
            Config := "/etc/v2raya" }
  egid := 1000
  resetAccounts := none
  splitHostPort := fun _ => .ok ("0.0.0.0", "2017")
  isPortOccupied := fun _ => (true, [{ Process := .error "permission denied" }], none)

/-- A process whose listening port 2017 is taken by `processX` with PID 1234. -/
def processXWorld : PreflightWorld where
  GOOS := "linux"
  conf := { PassCheckRoot := false, ResetPassword := false, Address := "0.0.0.0:2017",
            Config := "/etc/v2raya" }
  egid := 0
  resetAccounts := none
  splitHostPort := fun _ => .ok ("0.0.0.0", "2017")
  isPortOccupied := fun _ =>
    (true, [{ Process := .error "gone" }, { Process := .ok { Name := "processX", PID := "1234" } }],
      none)

/-! ## Theorems -/

theorem substV_portMessage (port name pid : String) :
    substV portMessage.data [port, name, pid] =
      "Port ".data ++ (port.data ++ (" is occupied by ".data ++ (name.data ++ ('/' :: pid.data)))) := by
  have h : portMessage.data = "Port ".data ++ ('%' :: 'v' :: (" is occupied by ".data ++ ('%' :: 'v' :: '/' :: '%' :: 'v' :: []))) := by
    rfl
  rw [h]
  simp [substV]

theorem socketLoop_of_firstOwner (port : String) (sockets : List Socket) (p : Process)
    (h : firstOwner sockets = some p) :
    socketLoop port sockets = .fatal portMessage [port, p.Name, p.PID] := by
  induction sockets with
  | nil => simp [firstOwner] at h
  | cons s rest ih =>
    unfold socketLoop
    cases hs : s.Process with
    | ok q =>
      simp [firstOwner, List.findSome?, hs] at h
      simp [h]
    | error e =>
      have h2 : firstOwner rest = some p := by
        simpa [firstOwner, List.findSome?, hs] using h
      simpa using ih h2

theorem socketLoop_of_firstOwner_none (port : String) (sockets : List Socket)
    (h : firstOwner sockets = none) : socketLoop port sockets = .returned := by
  induction sockets with
  | nil => rfl
  | cons s rest ih =>
    unfold socketLoop
    cases hs : s.Process with
    | ok q => simp [firstOwner, List.findSome?, hs] at h
    | error e =>
      have h2 : firstOwner rest = none := by
        simpa [firstOwner, List.findSome?, hs] using h
      simpa using ih h2

theorem checkEnvironment_past_gates (w : PreflightWorld)
    (hos : w.GOOS ≠ "windows")
    (hpriv : ((!w.conf.PassCheckRoot || w.conf.ResetPassword) && w.egid != 0) = false) :
    checkEnvironment w =
      if w.conf.ResetPassword then
        match w.resetAccounts with
        | some err => ([.resetAccounts], .fatal "checkEnvironment: %v" [err])
        | none => ([.resetAccounts, .println "It will work after you restart v2rayA"], .exit 0)
      else
        match w.splitHostPort w.conf.Address with
        | .error err => ([], .fatal "checkEnvironment: %v" [err])
        | .ok (_, v2rayAListeningPort) =>
          match w.isPortOccupied [v2rayAListeningPort ++ ":tcp"] with
          | (occupied, sockets, err) =>
            if occupied then
              match err with
              | some e => ([], .fatal "netstat:" [e])
              | none => ([], socketLoop v2rayAListeningPort sockets)
            else ([], .returned) := by
  unfold checkEnvironment
  rw [if_neg hos]
  have h2 : ¬ (((!w.conf.PassCheckRoot || w.conf.ResetPassword) && w.egid != 0) = true) := by
    rw [hpriv]; decide
  simp only []
  rw [if_neg h2]

theorem checkEnvironment_at_port_check (w : PreflightWorld) (host port : String)
    (sockets : List Socket) (err : GoError)
    (hos : w.GOOS ≠ "windows")
    (hpriv : ((!w.conf.PassCheckRoot || w.conf.ResetPassword) && w.egid != 0) = false)
    (hreset : w.conf.ResetPassword = false)
    (hsplit : w.splitHostPort w.conf.Address = .ok (host, port))
    (hocc : w.isPortOccupied [port ++ ":tcp"] = (true, sockets, err)) :
    (checkEnvironment w).2 =
      match err with
      | some e => .fatal "netstat:" [e]
      | none => socketLoop port sockets := by
  rw [checkEnvironment_past_gates w hos hpriv, hreset]
  simp only [Bool.false_eq_true, if_false, hsplit, hocc, if_true]
  cases err <;> rfl

theorem socketLoop_cases (port : String) (sockets : List Socket) :
    socketLoop port sockets = .returned ∨
      ∃ p : Process, socketLoop port sockets = .fatal portMessage [port, p.Name, p.PID] := by
  cases hf : firstOwner sockets with
  | none => exact Or.inl (socketLoop_of_firstOwner_none port sockets hf)
  | some p => exact Or.inr ⟨p, socketLoop_of_firstOwner port sockets p hf⟩

theorem checkEnvironment_past_gates_ne (w : PreflightWorld)
    (hos : w.GOOS ≠ "windows")
    (hpriv : ((!w.conf.PassCheckRoot || w.conf.ResetPassword) && w.egid != 0) = false) :
    (checkEnvironment w).2 ≠ .fatal rootMessage [] := by
  rw [checkEnvironment_past_gates w hos hpriv]
  generalize w.isPortOccupied = occupancy
  generalize w.splitHostPort w.conf.Address = split
  cases w.conf.ResetPassword with
  | true =>
    cases w.resetAccounts <;> simp
  | false =>
    simp only [Bool.false_eq_true, if_false]
    cases split with
    | error e => simp
    | ok hp =>
      obtain ⟨host, port⟩ := hp
      simp only []
      generalize occupancy [port ++ ":tcp"] = r
      obtain ⟨occ, sockets, err⟩ := r
      cases occ with
      | false => simp
      | true =>
        cases err with
        | some e => simp
        | none =>
          simp only [if_true]
          rcases socketLoop_cases port sockets with h | ⟨p, h⟩
          · rw [h]; simp
          · rw [h]; simp

theorem killedByPrivilegeCheck_iff (w : PreflightWorld) :
    killedByPrivilegeCheck w = true ↔
      (w.GOOS ≠ "windows" ∧ (w.conf.PassCheckRoot = false ∨ w.conf.ResetPassword = true) ∧
        w.egid ≠ 0) := by
  unfold killedByPrivilegeCheck
  rw [beq_iff_eq]
  by_cases hos : w.GOOS = "windows"
  · simp [checkEnvironment, hos]
  · cases hp : ((!w.conf.PassCheckRoot || w.conf.ResetPassword) && w.egid != 0) with
    | true =>
      have : (checkEnvironment w).2 = .fatal rootMessage [] := by
        unfold checkEnvironment
        rw [if_neg hos]
        simp only []
        rw [if_pos hp]
      simp only [this, ne_eq, hos, not_false_eq_true, true_and, true_iff]
      simpa using hp
    | false =>
      have h1 := checkEnvironment_past_gates_ne w hos hp
      simp only [h1, ne_eq, hos, not_false_eq_true, true_and, false_iff]
      intro h
      have : ((!w.conf.PassCheckRoot || w.conf.ResetPassword) && w.egid != 0) = true := by
        simpa using h
      rw [hp] at this
      exact Bool.false_ne_true this

/-- C4 (as the code has it): when the operating-system, privilege and
reset-password gates are passed, the listen address parses and the port check
reports the port as occupied, `checkEnvironment` ends fatally whenever the port
check also returned an error or the owner of some socket resolves; and when the
check returned no error and an owner resolves, the fatal message contains the
name and the PID of the first owner that resolves. -/
theorem checkEnvironment_port_occupied (w : PreflightWorld) (host port : String)
    (sockets : List Socket) (err : GoError)
    (hos : w.GOOS ≠ "windows")
    (hpriv : ((!w.conf.PassCheckRoot || w.conf.ResetPassword) && w.egid != 0) = false)
    (hreset : w.conf.ResetPassword = false)
    (hsplit : w.splitHostPort w.conf.Address = .ok (host, port))
    (hocc : w.isPortOccupied [port ++ ":tcp"] = (true, sockets, err)) :
    ((err ≠ none ∨ firstOwner sockets ≠ none) → (checkEnvironment w).2.isFatal = true) ∧
    (∀ p : Process, err = none → firstOwner sockets = some p →
      (checkEnvironment w).2 = .fatal portMessage [port, p.Name, p.PID] ∧
      p.Name.data <:+: (checkEnvironment w).2.message.data ∧
      p.PID.data <:+: (checkEnvironment w).2.message.data) := by
  have hout := checkEnvironment_at_port_check w host port sockets err hos hpriv hreset hsplit hocc
  rw [hout]
  cases err with
  | some e => simp [Outcome.isFatal]
  | none =>
    cases hf : firstOwner sockets with
    | none => simp
    | some q =>
      simp only [socketLoop_of_firstOwner port sockets q hf, Outcome.isFatal, Outcome.message,
        substV_portMessage]
      refine ⟨by simp, ?_⟩
      intro p _ hp
      cases hp
      refine ⟨rfl, ?_, ?_⟩
      · exact ⟨"Port ".data ++ (port.data ++ " is occupied by ".data), '/' :: q.PID.data,
          by simp⟩
      · exact ⟨"Port ".data ++ (port.data ++ (" is occupied by ".data ++ (q.Name.data ++ ['/']))),
          [], by simp⟩

/-- C4, witness: port 2017 taken by `processX` with PID 1234. -/
theorem checkEnvironment_port_occupied_witness :
    (checkEnvironment processXWorld).2 =
        .fatal portMessage ["2017", "processX", "1234"] ∧
      (checkEnvironment processXWorld).2.message = "Port 2017 is occupied by processX/1234" ∧
      "processX".data <:+: (checkEnvironment processXWorld).2.message.data ∧
      "1234".data <:+: (checkEnvironment processXWorld).2.message.data := by
  have h := (checkEnvironment_port_occupied processXWorld "0.0.0.0" "2017"
    [{ Process := .error "gone" }, { Process := .ok { Name := "processX", PID := "1234" } }] none
    (by decide) (by decide) rfl rfl rfl).2 { Name := "processX", PID := "1234" } rfl rfl
  refine ⟨h.1, ?_, h.2.1, h.2.2⟩
  decide

/-- C4, counterexample: the port is reported as occupied, the owner of the
only socket cannot be resolved, and `checkEnvironment` returns normally. -/
theorem port_occupied_returns_normally :
    hiddenOwnerWorld.splitHostPort hiddenOwnerWorld.conf.Address = .ok ("0.0.0.0", "2017") ∧
      (hiddenOwnerWorld.isPortOccupied ["2017" ++ ":tcp"]).1 = true ∧
      (checkEnvironment hiddenOwnerWorld).2 = .returned ∧
      (checkEnvironment hiddenOwnerWorld).2.isFatal = false := by
  refine ⟨rfl, rfl, ?_, ?_⟩ <;> decide

/-- C5 (as the code has it): the privilege check of `checkEnvironment` ends
the process fatally exactly when the operating system is not windows, the
effective group id is not 0, and `PassCheckRoot` is not set or `ResetPassword`
is set. -/
theorem privilege_check_fatal_iff (w : PreflightWorld) :
    killedByPrivilegeCheck w = true ↔
      (w.GOOS ≠ "windows" ∧ (w.conf.PassCheckRoot = false ∨ w.conf.ResetPassword = true) ∧
        w.egid ≠ 0) :=
  killedByPrivilegeCheck_iff w

/-- C5, counterexample: a process without root started with `PassCheckRoot`
and `ResetPassword` both set is ended by the privilege check. -/
theorem privilege_check_with_passcheckroot :
    resetWorld.conf.PassCheckRoot = true ∧ resetWorld.egid ≠ 0 ∧
      killedByPrivilegeCheck resetWorld = true := by
  refine ⟨rfl, by decide, ?_⟩
  exact (killedByPrivilegeCheck_iff resetWorld).2 ⟨by decide, Or.inr rfl, by decide⟩

/-! ### `initConfigure` -/

theorem migrationAttempts_append (a b : List BootEvent) :
    migrationAttempts (a ++ b) = migrationAttempts a ++ migrationAttempts b := by
  simp [migrationAttempts]

theorem newCalled_append (a b : List BootEvent) :
    newCalled (a ++ b) = (newCalled a || newCalled b) := by
  simp [newCalled, List.contains_eq_any_beq]

theorem migrationAttempts_migrate (w : BootstrapWorld) (p : String) :
    migrationAttempts (migrate w p).1 = [p] := by
  unfold migrate migrateBody
  cases h1 : w.readFile p with
  | error e => simp [migrationAttempts]
  | ok b =>
    cases h2 : w.unmarshal b with
    | error e => simp [migrationAttempts, h2]
    | ok cfg => cases h3 : w.setConfigure cfg <;> simp [migrationAttempts, h2, h3]

theorem newCalled_migrate (w : BootstrapWorld) (p : String) :
    newCalled (migrate w p).1 = false := by
  unfold migrate migrateBody
  cases h1 : w.readFile p with
  | error e => simp [newCalled]
  | ok b =>
    cases h2 : w.unmarshal b with
    | error e => simp [newCalled, h2]
    | ok cfg => cases h3 : w.setConfigure cfg <;> simp [newCalled, h2, h3]

theorem newCalled_migrateLoop (w : BootstrapWorld) (l : List String) :
    newCalled (migrateLoop w l).1 = false := by
  induction l with
  | nil => simp [migrateLoop, newCalled]
  | cons p rest ih =>
    unfold migrateLoop
    cases w.stat p with
    | some e => simpa using ih
    | none =>
      have hm := newCalled_migrate w p
      cases h2 : (migrate w p).2 with
      | none =>
        simp only [h2]
        have : newCalled [BootEvent.logInfo "migrate from %v" [p]] = false := by
          simp [newCalled]
        rw [← List.singleton_append, newCalled_append, this, hm]; rfl
      | some e =>
        simp only [h2]
        have : newCalled [BootEvent.logInfo "migrate from %v" [p]] = false := by
          simp [newCalled]
        rw [← List.singleton_append, newCalled_append, newCalled_append, this, hm, ih]
        rfl

theorem migrateLoop_cons_missing (w : BootstrapWorld) (p : String) (rest : List String)
    (h : fileExists w p = false) : migrateLoop w (p :: rest) = migrateLoop w rest := by
  unfold fileExists at h
  cases hs : w.stat p with
  | none => simp [hs] at h
  | some e => rw [migrateLoop]; simp [hs]

theorem migrateLoop_cons_ok (w : BootstrapWorld) (p : String) (rest : List String)
    (h : fileExists w p = true) (hm : migrates w p = true) :
    migrateLoop w (p :: rest) =
      (.logInfo "migrate from %v" [p] :: (migrate w p).1, true) := by
  unfold fileExists at h
  unfold migrates at hm
  cases hs : w.stat p with
  | some e => simp [hs] at h
  | none =>
    cases h2 : (migrate w p).2 with
    | some e => simp [h2] at hm
    | none => rw [migrateLoop]; simp [hs, h2]

theorem migrateLoop_cons_failed (w : BootstrapWorld) (p : String) (rest : List String)
    (h : fileExists w p = true) (hm : migrates w p = false) :
    migrateLoop w (p :: rest) =
      (.logInfo "migrate from %v" [p] :: ((migrate w p).1 ++ (migrateLoop w rest).1),
        (migrateLoop w rest).2) := by
  unfold fileExists at h
  unfold migrates at hm
  cases hs : w.stat p with
  | some e => simp [hs] at h
  | none =>
    cases h2 : (migrate w p).2 with
    | none => simp [h2] at hm
    | some e => rw [migrateLoop]; simp [hs, h2]

theorem migrationAttempts_log_cons (f : String) (args : List String) (l : List BootEvent) :
    migrationAttempts (.logInfo f args :: l) = migrationAttempts l := by
  simp [migrationAttempts]

theorem migrateLoop_stops (w : BootstrapWorld) (before : List String) (p : String)
    (after : List String)
    (hb : ∀ q ∈ before, ¬ (fileExists w q = true ∧ migrates w q = true))
    (he : fileExists w p = true) (hm : migrates w p = true) :
    migrationAttempts (migrateLoop w (before ++ p :: after)).1 =
        before.filter (fileExists w) ++ [p] ∧
      (migrateLoop w (before ++ p :: after)).2 = true := by
  induction before with
  | nil =>
    rw [List.nil_append, migrateLoop_cons_ok w p after he hm]
    simp [migrationAttempts_log_cons, migrationAttempts_migrate]
  | cons q rest ih =>
    have ih2 := ih (fun x hx => hb x (List.mem_cons_of_mem _ hx))
    have hq := hb q (List.mem_cons_self _ _)
    rw [List.cons_append]
    cases hqe : fileExists w q with
    | false =>
      rw [migrateLoop_cons_missing w q _ hqe]
      simpa [List.filter, hqe] using ih2
    | true =>
      have hqm : migrates w q = false := by
        cases hx : migrates w q with
        | false => rfl
        | true => exact absurd ⟨hqe, hx⟩ hq
      rw [migrateLoop_cons_failed w q _ hqe hqm]
      simp only [migrationAttempts_log_cons, migrationAttempts_append, migrationAttempts_migrate,
        ih2.1, ih2.2, List.filter, hqe]
      simp

theorem migrateLoop_exhausted (w : BootstrapWorld) (l : List String)
    (hb : ∀ q ∈ l, ¬ (fileExists w q = true ∧ migrates w q = true)) :
    migrationAttempts (migrateLoop w l).1 = l.filter (fileExists w) ∧
      (migrateLoop w l).2 = false := by
  induction l with
  | nil => simp [migrateLoop, migrationAttempts]
  | cons q rest ih =>
    have ih2 := ih (fun x hx => hb x (List.mem_cons_of_mem _ hx))
    have hq := hb q (List.mem_cons_self _ _)
    cases hqe : fileExists w q with
    | false =>
      rw [migrateLoop_cons_missing w q _ hqe]
      simpa [List.filter, hqe] using ih2
    | true =>
      have hqm : migrates w q = false := by
        cases hx : migrates w q with
        | false => rfl
        | true => exact absurd ⟨hqe, hx⟩ hq
      rw [migrateLoop_cons_failed w q _ hqe hqm]
      simp only [migrationAttempts_log_cons, migrationAttempts_append, migrationAttempts_migrate,
        ih2.1, ih2.2, List.filter, hqe]
      simp

theorem migrateLoop_success_iff (w : BootstrapWorld) (l : List String) :
    (migrateLoop w l).2 = true ↔ ∃ q ∈ l, fileExists w q = true ∧ migrates w q = true := by
  induction l with
  | nil => simp [migrateLoop]
  | cons q rest ih =>
    cases hqe : fileExists w q with
    | false =>
      rw [migrateLoop_cons_missing w q _ hqe, ih]
      simp [hqe]
    | true =>
      cases hqm : migrates w q with
      | true =>
        rw [migrateLoop_cons_ok w q _ hqe hqm]
        simp [hqe, hqm]
      | false =>
        rw [migrateLoop_cons_failed w q _ hqe hqm]
        simp only [ih]
        simp [hqm]

theorem migrateLoop_attempts_exist (w : BootstrapWorld) (l : List String) :
    ∀ p ∈ migrationAttempts (migrateLoop w l).1, p ∈ l ∧ fileExists w p = true := by
  induction l with
  | nil => simp [migrateLoop, migrationAttempts]
  | cons q rest ih =>
    intro p hp
    cases hqe : fileExists w q with
    | false =>
      rw [migrateLoop_cons_missing w q _ hqe] at hp
      exact ⟨List.mem_cons_of_mem _ (ih p hp).1, (ih p hp).2⟩
    | true =>
      cases hqm : migrates w q with
      | true =>
        rw [migrateLoop_cons_ok w q _ hqe hqm] at hp
        simp only [migrationAttempts_log_cons, migrationAttempts_migrate,
          List.mem_singleton] at hp
        subst hp
        exact ⟨List.mem_cons_self _ _, hqe⟩
      | false =>
        rw [migrateLoop_cons_failed w q _ hqe hqm] at hp
        simp only [migrationAttempts_log_cons, migrationAttempts_append,
          migrationAttempts_migrate, List.singleton_append, List.mem_cons] at hp
        rcases hp with hp | hp
        · subst hp
          exact ⟨List.mem_cons_self _ _, hqe⟩
        · exact ⟨List.mem_cons_of_mem _ (ih p hp).1, (ih p hp).2⟩

theorem dld_quiet (w : BootstrapWorld) (repo filename localname : String) :
    migrationAttempts (dld w repo filename localname).1 = [] ∧
      newCalled (dld w repo filename localname).1 = false := by
  unfold dld
  simp only []
  split
  · simp [migrationAttempts, newCalled]
  · simp [migrationAttempts, newCalled]
  · split
    · simp [migrationAttempts, newCalled]
    · split <;> simp [migrationAttempts, newCalled]

theorem initAssets_quiet (w : BootstrapWorld) :
    migrationAttempts (initAssets w) = [] ∧ newCalled (initAssets w) = false := by
  have ha := dld_quiet w "v2rayA/dist-geoip" "geoip.dat" "geoip.dat"
  have hb := dld_quiet w "v2rayA/dist-domain-list-community" "dlc.dat" "geosite.dat"
  unfold initAssets
  simp only [migrationAttempts_append, newCalled_append]
  have h1 : migrationAttempts (match w.stat w.v2rayConfigPath with
      | some _ => [BootEvent.writeV2rayConfig w.templateBytes]
      | none => []) = [] ∧ newCalled (match w.stat w.v2rayConfigPath with
      | some _ => [BootEvent.writeV2rayConfig w.templateBytes]
      | none => []) = false := by
    split <;> simp [migrationAttempts, newCalled]
  rw [h1.1, h1.2]
  split
  · split
    · simp only [migrationAttempts_append, newCalled_append, ha.1, ha.2, hb.1, hb.2]
      constructor
      · split <;> split <;> simp [migrationAttempts]
      · split <;> split <;> simp [newCalled]
    · simp [migrationAttempts, newCalled]
  · simp [migrationAttempts, newCalled]

theorem start_quiet (l : List BootEvent) :
    migrationAttempts (BootEvent.registerFuzzyDecoders :: l) = migrationAttempts l ∧
      newCalled (BootEvent.registerFuzzyDecoders :: l) = newCalled l := by
  simp [migrationAttempts, newCalled]

theorem mkdir_quiet (w : BootstrapWorld) :
    migrationAttempts
        (if w.isNotExist (w.stat w.confPath) = true then [BootEvent.mkdirAll (w.pathDir w.confPath)]
          else []) = [] ∧
      newCalled
        (if w.isNotExist (w.stat w.confPath) = true then [BootEvent.mkdirAll (w.pathDir w.confPath)]
          else []) = false := by
  split <;> simp [migrationAttempts, newCalled]

theorem seeding_cons_other (e : BootEvent) (l : List BootEvent) (he : e ≠ .newConfigure) :
    seeding (e :: l) = seeding l := by
  cases e <;> first | exact absurd rfl he | rfl

theorem seeding_append (a b : List BootEvent) (h : newCalled a = false) :
    seeding (a ++ b) = seeding b := by
  induction a with
  | nil => rfl
  | cons e rest ih =>
    have he : e ≠ .newConfigure := by
      intro hc
      subst hc
      simp [newCalled] at h
    have hrest : newCalled rest = false := by
      have h2 : newCalled ([e] ++ rest) = false := h
      rw [newCalled_append, Bool.or_eq_false_iff] at h2
      exact h2.2
    rw [List.cons_append, seeding_cons_other e _ he]
    exact ih hrest

theorem seeding_of_not_called (a : List BootEvent) (h : newCalled a = false) :
    seeding a = none := by
  have := seeding_append a [] h
  rw [List.append_nil] at this
  rw [this]
  rfl

theorem seeding_initDBValue (w : BootstrapWorld) (rest : List BootEvent) :
    seeding ((initDBValue w).1 ++ rest) =
      some (w.newConfigure, w.setConfigure w.newConfigure) := by
  unfold initDBValue
  cases w.setConfigure w.newConfigure <;> rfl

theorem initConfigure_before_seeding (w : BootstrapWorld) :
    newCalled
      ((BootEvent.registerFuzzyDecoders ::
        (if w.isNotExist (w.stat w.confPath) = true then
          [BootEvent.mkdirAll (w.pathDir w.confPath)] else [])) ++
        (migrateLoop w (camp w)).1) = false := by
  have hstart := start_quiet
  have hmk := mkdir_quiet w
  have hl := newCalled_migrateLoop w (camp w)
  simp only [List.cons_append, hstart, newCalled_append, hmk.2, hl]
  rfl

theorem initConfigure_trace (w : BootstrapWorld) (h : w.isConfigureNotExists = true) :
    migrationAttempts (initConfigure w).1 = migrationAttempts (migrateLoop w (camp w)).1 ∧
      seeding (initConfigure w).1 =
        (if (migrateLoop w (camp w)).2 then none
          else some (w.newConfigure, w.setConfigure w.newConfigure)) ∧
      (initConfigure w).2 =
        (if (migrateLoop w (camp w)).2 then .returned
          else match w.setConfigure w.newConfigure with
            | some e => .fatal "initDBValue: %v" [e]
            | none => .returned) := by
  have hq := initAssets_quiet w
  have hstart := start_quiet
  have hmk := mkdir_quiet w
  have hpre := initConfigure_before_seeding w
  unfold initConfigure
  simp only [h, if_true]
  cases hs : (migrateLoop w (camp w)).2 with
  | true =>
    simp only [Bool.not_true, Bool.false_eq_true, if_false, if_true]
    refine ⟨?_, ?_, trivial⟩
    · simp only [List.cons_append, hstart, migrationAttempts_append, hq.1, hmk.1]
      simp
    · apply seeding_of_not_called
      rw [newCalled_append, hpre, hq.2]
      rfl
  | false =>
    simp only [Bool.not_false, if_true, Bool.false_eq_true, if_false]
    have hseed : ∀ rest, seeding
        (((BootEvent.registerFuzzyDecoders ::
          (if w.isNotExist (w.stat w.confPath) = true then
            [BootEvent.mkdirAll (w.pathDir w.confPath)] else [])) ++
          (migrateLoop w (camp w)).1) ++ ((initDBValue w).1 ++ rest)) =
        some (w.newConfigure, w.setConfigure w.newConfigure) := by
      intro rest
      rw [seeding_append _ _ hpre, seeding_initDBValue]
    have hattempts : migrationAttempts (initDBValue w).1 = [] := by
      unfold initDBValue
      cases w.setConfigure w.newConfigure <;> simp [migrationAttempts]
    cases hset : w.setConfigure w.newConfigure with
    | none =>
      have hdb : initDBValue w =
          ([.logInfo "init DB" [], .newConfigure, .setConfigure w.newConfigure none],
            .returned) := by
        simp [initDBValue, hset]
      have hseed2 := hseed (initAssets w)
      rw [hdb, hset] at hseed2
      rw [hdb]
      refine ⟨?_, ?_, rfl⟩
      · simp only [List.cons_append, hstart, migrationAttempts_append, hq.1, hmk.1]
        simp [migrationAttempts]
      · simpa [List.append_assoc] using hseed2
    | some e =>
      have hdb : initDBValue w =
          ([.logInfo "init DB" [], .newConfigure, .setConfigure w.newConfigure (some e)],
            .fatal "initDBValue: %v" [e]) := by
        simp [initDBValue, hset]
      have hseed2 := hseed []
      rw [hdb, hset] at hseed2
      rw [hdb]
      refine ⟨?_, ?_, rfl⟩
      · simp only [List.cons_append, hstart, migrationAttempts_append, hmk.1]
        simp [migrationAttempts]
      · simpa [List.append_assoc] using hseed2

theorem initConfigure_trace_stored (w : BootstrapWorld) (h : w.isConfigureNotExists = false) :
    migrationAttempts (initConfigure w).1 = [] ∧ seeding (initConfigure w).1 = none ∧
      (initConfigure w).2 = .returned := by
  have hq := initAssets_quiet w
  have hstart := start_quiet
  have hmk := mkdir_quiet w
  unfold initConfigure
  simp only [h, Bool.false_eq_true, if_false]
  refine ⟨?_, ?_, trivial⟩
  · simp only [List.cons_append, hstart, migrationAttempts_append, hq.1, hmk.1]
    simp
  · apply seeding_of_not_called
    simp only [List.cons_append, hstart, newCalled_append, hq.2, hmk.2]
    rfl

/-- C3 (as the code has it): `initConfigure` tries the legacy files in the
order `<config dir>/v2raya.json`, `/etc/v2ray/v2raya.json`,
`/etc/v2raya/v2raya.json`. With a stored configuration it calls `migrate` on
none, does not call `configure.SetConfigure(configure.New())` and returns.
Without one, `migrate` is called only on candidates that exist; it is called on
every existing candidate up to and including the first one whose migration
succeeds and on no later one, and then the defaults are not seeded; the call
`configure.SetConfigure(configure.New())` is made exactly when no existing
candidate migrates successfully; the defaults are stored exactly when moreover
this call returns `nil`, and `initConfigure` then returns; when the call
returns an error, `initConfigure` ends in `log.Fatal`. -/
theorem initConfigure_migration (w : BootstrapWorld) :
    camp w = [w.pathJoin (w.pathDir w.confPath) "v2raya.json", "/etc/v2ray/v2raya.json",
      "/etc/v2raya/v2raya.json"] ∧
    (w.isConfigureNotExists = false →
      migrationAttempts (initConfigure w).1 = [] ∧ seeding (initConfigure w).1 = none ∧
      defaultsSeeded w (initConfigure w).1 = false ∧ (initConfigure w).2 = .returned) ∧
    (w.isConfigureNotExists = true →
      (∀ p ∈ migrationAttempts (initConfigure w).1, p ∈ camp w ∧ fileExists w p = true) ∧
      (∀ (before : List String) (p : String) (after : List String),
        camp w = before ++ p :: after →
        (∀ q ∈ before, ¬ (fileExists w q = true ∧ migrates w q = true)) →
        fileExists w p = true → migrates w p = true →
        migrationAttempts (initConfigure w).1 = before.filter (fileExists w) ++ [p] ∧
          seeding (initConfigure w).1 = none ∧
          defaultsSeeded w (initConfigure w).1 = false ∧ (initConfigure w).2 = .returned) ∧
      ((∀ q ∈ camp w, ¬ (fileExists w q = true ∧ migrates w q = true)) →
        migrationAttempts (initConfigure w).1 = (camp w).filter (fileExists w) ∧
        seeding (initConfigure w).1 = some (w.newConfigure, w.setConfigure w.newConfigure) ∧
        (w.setConfigure w.newConfigure = none → (initConfigure w).2 = .returned) ∧
        (∀ e, w.setConfigure w.newConfigure = some e →
          (initConfigure w).2 = .fatal "initDBValue: %v" [e])) ∧
      ((seeding (initConfigure w).1).isSome = true ↔
        ∀ q ∈ camp w, ¬ (fileExists w q = true ∧ migrates w q = true)) ∧
      (defaultsSeeded w (initConfigure w).1 = true ↔
        (∀ q ∈ camp w, ¬ (fileExists w q = true ∧ migrates w q = true)) ∧
          w.setConfigure w.newConfigure = none)) := by
  refine ⟨rfl, ?_, ?_⟩
  · intro h
    obtain ⟨h1, h2, h3⟩ := initConfigure_trace_stored w h
    exact ⟨h1, h2, by simp [defaultsSeeded, h2], h3⟩
  intro h
  obtain ⟨ht1, ht2, ht3⟩ := initConfigure_trace w h
  have hiff := migrateLoop_success_iff w (camp w)
  have hnone : (∀ q ∈ camp w, ¬ (fileExists w q = true ∧ migrates w q = true)) ↔
      (migrateLoop w (camp w)).2 = false := by
    constructor
    · intro hb
      cases h2 : (migrateLoop w (camp w)).2 with
      | false => rfl
      | true =>
        obtain ⟨q, hq, hqq⟩ := hiff.1 h2
        exact absurd hqq (hb q hq)
    · intro hs q hq hqq
      have h2 : (migrateLoop w (camp w)).2 = true := hiff.2 ⟨q, hq, hqq⟩
      rw [h2] at hs
      exact Bool.noConfusion hs
  rw [ht1]
  refine ⟨migrateLoop_attempts_exist w (camp w), ?_, ?_, ?_, ?_⟩
  · intro before p after hc hb he hm
    have hstop := migrateLoop_stops w before p after hb he hm
    rw [← hc] at hstop
    rw [hstop.2] at ht2 ht3
    simp only [if_true] at ht2 ht3
    exact ⟨hstop.1, ht2, by simp [defaultsSeeded, ht2], ht3⟩
  · intro hb
    have hs := hnone.1 hb
    rw [hs] at ht2 ht3
    simp only [Bool.false_eq_true, if_false] at ht2 ht3
    refine ⟨(migrateLoop_exhausted w (camp w) hb).1, ht2, ?_, ?_⟩
    · intro hok
      rw [ht3, hok]
    · intro e he
      rw [ht3, he]
  · rw [ht2, hnone]
    cases (migrateLoop w (camp w)).2 <;> simp
  · rw [hnone]
    unfold defaultsSeeded
    rw [ht2]
    cases (migrateLoop w (camp w)).2 with
    | true => simp
    | false =>
      simp only [Bool.false_eq_true, if_false, beq_iff_eq, Option.some.injEq, Prod.mk.injEq,
        true_and]

/-- C3, witness: of the three candidates only the second exists and
migrates; `migrate` is called on it alone and the defaults are not seeded. -/
theorem initConfigure_migration_witness :
    migrationAttempts (initConfigure legacyWorld).1 = ["/etc/v2ray/v2raya.json"] ∧
      seeding (initConfigure legacyWorld).1 = none ∧
      defaultsSeeded legacyWorld (initConfigure legacyWorld).1 = false ∧
      (initConfigure legacyWorld).2 = .returned :=
  ((initConfigure_migration legacyWorld).2.2 rfl).2.1
    ["/home/u/.config/v2raya.json"] "/etc/v2ray/v2raya.json" ["/etc/v2raya/v2raya.json"]
    (by decide) (by decide) (by decide) (by decide)

/-- C3, counterexample: no stored configuration, no legacy file, and the
store refuses to write. No migration succeeds (none is tried), the call
`configure.SetConfigure(configure.New())` is made and returns an error, the
defaults are not stored and `initConfigure` ends in `log.Fatal`. -/
theorem seeding_fails_fatally :
    (∀ q ∈ camp brokenStoreWorld,
      ¬ (fileExists brokenStoreWorld q = true ∧ migrates brokenStoreWorld q = true)) ∧
    migrationAttempts (initConfigure brokenStoreWorld).1 = [] ∧
    seeding (initConfigure brokenStoreWorld).1 = some (⟨"defaults"⟩, some "disk full") ∧
    defaultsSeeded brokenStoreWorld (initConfigure brokenStoreWorld).1 = false ∧
    (initConfigure brokenStoreWorld).2 = .fatal "initDBValue: %v" ["disk full"] := by
  refine ⟨by decide, by decide, by decide, by decide, by decide⟩

/-! ### The loop of `checkUpdate` that waits for the network -/

theorem networkGate_first (r : Nat → List String × GoError) (k : Nat) :
    ∀ (n fuel : Nat), (∀ j, j < k → lookupReady (r (n + j)) = false) →
      lookupReady (r (n + k)) = true →
      networkGate r fuel n = if k < fuel then some (gateTrace k) else none := by
  induction k with
  | zero =>
    intro n fuel _ hok
    cases fuel with
    | zero => simp [networkGate]
    | succ f =>
      have hok2 : lookupReady (r n) = true := by simpa using hok
      simp [networkGate, hok2, gateTrace]
  | succ k ih =>
    intro n fuel hfail hok
    cases fuel with
    | zero => simp [networkGate]
    | succ f =>
      have h0 : lookupReady (r n) = false := by simpa using hfail 0 (Nat.succ_pos k)
      have hrec := ih (n + 1) f
        (fun j hj => by
          have := hfail (j + 1) (Nat.succ_lt_succ hj)
          rwa [show n + (j + 1) = n + 1 + j by omega] at this)
        (by rwa [show n + (k + 1) = n + 1 + k by omega] at hok)
      rw [networkGate]
      simp only [h0, Bool.false_eq_true, if_false, hrec]
      by_cases hk : k < f
      · simp [hk, gateTrace]
      · simp [hk]

theorem networkGate_never (r : Nat → List String × GoError) :
    ∀ (fuel n : Nat), (∀ j, lookupReady (r (n + j)) = false) → networkGate r fuel n = none := by
  intro fuel
  induction fuel with
  | zero => intro n _; simp [networkGate]
  | succ f ih =>
    intro n h
    have h0 : lookupReady (r n) = false := by simpa using h 0
    rw [networkGate]
    simp only [h0, Bool.false_eq_true, if_false]
    rw [ih (n + 1) (fun j => by
      have := h (j + 1)
      rwa [show n + (j + 1) = n + 1 + j by omega] at this)]
    rfl

theorem lookupCount_gateTrace (k : Nat) : lookupCount (gateTrace k) = k + 1 := by
  induction k with
  | zero => simp [gateTrace, lookupCount]
  | succ k ih =>
    simp only [lookupCount] at ih
    simp [gateTrace, lookupCount, ih]

theorem waitCount_gateTrace (k : Nat) : waitCount (gateTrace k) = k := by
  induction k with
  | zero => simp [gateTrace, waitCount]
  | succ k ih =>
    simp only [waitCount] at ih
    simp [gateTrace, waitCount, Second, List.count_cons, ih]

theorem sleepCount_gateTrace (k : Nat) : sleepCount (gateTrace k) = k := by
  induction k with
  | zero => simp [gateTrace, sleepCount]
  | succ k ih =>
    simp only [sleepCount] at ih
    simp [gateTrace, sleepCount, ih]

theorem placeholderPeriod_eq : placeholderPeriod = 3153600000000000000 := by
  norm_num [placeholderPeriod, wrap64, Hour, Second]

theorem initUpdatingTicker_eq (s : Sched) (h : s.panicked = none) :
    initUpdatingTicker s =
      { events := s.events ++ tickerTrace,
        TickerUpdateGFWList := some placeholderPeriod,
        TickerUpdateSubscription := some placeholderPeriod,
        panicked := none } := by
  have hp : ¬ placeholderPeriod ≤ 0 := by rw [placeholderPeriod_eq]; decide
  simp [initUpdatingTicker, newTicker, hp, Sched.andThen, Sched.emit, Sched.setPeriod, h,
    tickerTrace]

theorem emit_events_extend (s : Sched) (e : UpdateEvent) : s.events <+: (s.emit e).events := by
  simp [Sched.emit]

theorem setPeriod_events (s : Sched) (t : TickerId) (d : Int) :
    (s.setPeriod t d).events = s.events := by
  cases t <;> rfl

theorem tickerReset_events_extend (t : TickerId) (d : Int) (s : Sched) :
    s.events <+: (tickerReset t d s).events := by
  unfold tickerReset
  split
  · exact List.prefix_refl _
  · split
    · exact List.prefix_refl _
    · rw [setPeriod_events]; exact emit_events_extend s _

theorem andThen_events_extend (s : Sched) (f : Sched → Sched)
    (hf : ∀ x : Sched, x.events <+: (f x).events) : s.events <+: (s.andThen f).events := by
  unfold Sched.andThen
  split
  · exact List.prefix_refl _
  · exact hf s

theorem checkGFWList_events_extend (k : ConfigureConsts) (setting : Setting) (s : Sched) :
    s.events <+: (checkGFWList k setting s).events := by
  unfold checkGFWList
  split
  · refine List.IsPrefix.trans ?_ (andThen_events_extend _ _ ?_)
    · split
      · exact tickerReset_events_extend _ _ _
      · exact List.prefix_refl _
    · intro x
      split
      · exact emit_events_extend x _
      · split <;> exact List.prefix_refl _
  · exact List.prefix_refl _

theorem checkSubscriptions_events_extend (k : ConfigureConsts) (setting : Setting) (s : Sched) :
    s.events <+: (checkSubscriptions k setting s).events := by
  unfold checkSubscriptions
  split
  · refine List.IsPrefix.trans ?_ (andThen_events_extend _ _ ?_)
    · split
      · exact tickerReset_events_extend _ _ _
      · exact List.prefix_refl _
    · intro x
      exact emit_events_extend x _
  · exact List.prefix_refl _

theorem checkUpdateAfterGate_events_extend (k : ConfigureConsts) (setting : Setting) (s : Sched)
    (h : s.panicked = none) :
    (s.events ++ [.logWarn "network is connected"] ++ tickerTrace) <+:
      (checkUpdateAfterGate k setting s).events := by
  unfold checkUpdateAfterGate
  have h1 : (s.emit (.logWarn "network is connected")).panicked = none := by
    simpa [Sched.emit] using h
  rw [initUpdatingTicker_eq _ h1]
  refine List.IsPrefix.trans ?_ (andThen_events_extend _ _ (fun x => emit_events_extend x _))
  refine List.IsPrefix.trans ?_
    (andThen_events_extend _ _ (checkSubscriptions_events_extend k setting))
  refine List.IsPrefix.trans ?_
    (andThen_events_extend _ _ (checkGFWList_events_extend k setting))
  simp [Sched.emit]

theorem exists_first_ready (r : Nat → List String × GoError)
    (h : ∃ k, lookupReady (r k) = true) :
    ∃ k, (∀ j, j < k → lookupReady (r j) = false) ∧ lookupReady (r k) = true := by
  classical
  refine ⟨Nat.find h, ?_, Nat.find_spec h⟩
  intro j hj
  have := Nat.find_min h hj
  simpa using this

theorem networkGate_ends_iff (r : Nat → List String × GoError) :
    (∃ fuel, (networkGate r fuel 0).isSome = true) ↔ ∃ k, lookupReady (r k) = true := by
  constructor
  · rintro ⟨fuel, hf⟩
    by_contra hno
    have hall : ∀ j, lookupReady (r (0 + j)) = false := by
      intro j
      cases hj : lookupReady (r (0 + j)) with
      | false => rfl
      | true => exact absurd ⟨0 + j, hj⟩ hno
    rw [networkGate_never r fuel 0 hall] at hf
    simp at hf
  · intro h
    obtain ⟨k, hfail, hok⟩ := exists_first_ready r h
    refine ⟨k + 1, ?_⟩
    rw [networkGate_first r k 0 (k + 1) (by simpa using hfail) (by simpa using hok)]
    simp

/-- C8: when the first lookup result with no error and at least one address
is the one at position `k`, the waiting loop of `checkUpdate` ends (for any
bound above `k` on its iterations, and for no smaller one) after exactly
`k + 1` lookups and exactly `k` waits, each of five seconds, and `checkUpdate`
goes on to `initUpdatingTicker`; a result with no error and no address is not
ready; and the loop ends if and only if some result is ready. -/
theorem network_gate (r : Nat → List String × GoError) :
    (∀ k : Nat, (∀ j, j < k → lookupReady (r j) = false) → lookupReady (r k) = true →
      (∀ fuel, networkGate r fuel 0 = if k < fuel then some (gateTrace k) else none) ∧
      lookupCount (gateTrace k) = k + 1 ∧ waitCount (gateTrace k) = k ∧
      sleepCount (gateTrace k) = k ∧
      (∀ (consts : ConfigureConsts) (setting : Setting) (fuel : Nat), k < fuel →
        ∃ s, checkUpdate consts { setting := setting, lookupHost := r } fuel = some s ∧
          ([.getSetting, .checkAndStopTransparentProxy] ++ gateTrace k ++
            [.logWarn "network is connected"] ++ tickerTrace) <+: s.events)) ∧
    lookupReady ([], none) = false ∧
    ((∃ fuel, (networkGate r fuel 0).isSome = true) ↔ ∃ k, lookupReady (r k) = true) := by
  refine ⟨?_, rfl, networkGate_ends_iff r⟩
  intro k hfail hok
  have hgate := networkGate_first r k 0
  refine ⟨fun fuel => hgate fuel (by simpa using hfail) (by simpa using hok),
    lookupCount_gateTrace k, waitCount_gateTrace k, sleepCount_gateTrace k, ?_⟩
  intro consts setting fuel hk
  have hg := hgate fuel (by simpa using hfail) (by simpa using hok)
  rw [if_pos hk] at hg
  have hc : checkUpdate consts { setting := setting, lookupHost := r } fuel =
      some (checkUpdateAfterGate consts setting
        { events := [.getSetting, .checkAndStopTransparentProxy] ++ gateTrace k,
          TickerUpdateGFWList := none, TickerUpdateSubscription := none, panicked := none }) := by
    simp only [checkUpdate, hg]
  exact ⟨_, hc, checkUpdateAfterGate_events_extend consts setting
    { events := [.getSetting, .checkAndStopTransparentProxy] ++ gateTrace k,
      TickerUpdateGFWList := none, TickerUpdateSubscription := none, panicked := none } rfl⟩

/-- C8, witness: two failing lookups (an error, then no error with no
address) and a success give three lookups and two waits. -/
theorem network_gate_witness :
    networkGate failFailSucceed 5 0 = some (gateTrace 2) ∧
      lookupCount (gateTrace 2) = 3 ∧ waitCount (gateTrace 2) = 2 := by
  have h := (network_gate failFailSucceed).1 2
    (by intro j hj; interval_cases j <;> rfl) rfl
  exact ⟨by simpa using h.1 5, h.2.1, h.2.2.1⟩

/-! ### The timers and the immediate updates of `checkUpdate` -/

theorem andThen_of_running (s : Sched) (f : Sched → Sched) (h : s.panicked = none) :
    s.andThen f = f s := by
  simp [Sched.andThen, h]

theorem andThen_of_panicked (s : Sched) (f : Sched → Sched) (m : String)
    (h : s.panicked = some m) : s.andThen f = s := by
  simp [Sched.andThen, h]

theorem tickerReset_ok (t : TickerId) (d : Int) (s : Sched) (p : Int)
    (hp : s.period t = some p) (hd : ¬ d ≤ 0) :
    tickerReset t d s = (s.emit (.reset t d)).setPeriod t d := by
  simp [tickerReset, hp, hd]

theorem tickerReset_bad (t : TickerId) (d : Int) (s : Sched) (p : Int)
    (hp : s.period t = some p) (hd : d ≤ 0) :
    tickerReset t d s = { s with panicked := some "non-positive interval for Ticker.Reset" } := by
  simp [tickerReset, hp, hd]

theorem checkGFWList_eq (k : ConfigureConsts) (setting : Setting) (ev : List UpdateEvent)
    (p q : Int) :
    checkGFWList k setting
        { events := ev, TickerUpdateGFWList := some p, TickerUpdateSubscription := some q,
          panicked := none } =
      if setting.GFWListAutoUpdateMode = k.AutoUpdate ∨
          setting.GFWListAutoUpdateMode = k.AutoUpdateAtIntervals ∨
          setting.Transparent = k.TransparentGfwlist then
        if setting.GFWListAutoUpdateMode = k.AutoUpdateAtIntervals then
          if hours setting.GFWListAutoUpdateIntervalHour ≤ 0 then
            { events := ev, TickerUpdateGFWList := some p, TickerUpdateSubscription := some q,
              panicked := some "non-positive interval for Ticker.Reset" }
          else if setting.RulePortMode = k.GfwlistMode then
            { events := ev ++ [.reset .TickerUpdateGFWList
                  (hours setting.GFWListAutoUpdateIntervalHour), .go .ruleListUpdate],
              TickerUpdateGFWList := some (hours setting.GFWListAutoUpdateIntervalHour),
              TickerUpdateSubscription := some q, panicked := none }
          else
            { events := ev ++ [.reset .TickerUpdateGFWList
                  (hours setting.GFWListAutoUpdateIntervalHour)],
              TickerUpdateGFWList := some (hours setting.GFWListAutoUpdateIntervalHour),
              TickerUpdateSubscription := some q, panicked := none }
        else if setting.RulePortMode = k.GfwlistMode then
          { events := ev ++ [.go .ruleListUpdate], TickerUpdateGFWList := some p,
            TickerUpdateSubscription := some q, panicked := none }
        else
          { events := ev, TickerUpdateGFWList := some p, TickerUpdateSubscription := some q,
            panicked := none }
      else
        { events := ev, TickerUpdateGFWList := some p, TickerUpdateSubscription := some q,
          panicked := none } := by
  unfold checkGFWList
  by_cases hc : setting.GFWListAutoUpdateMode = k.AutoUpdate ∨
      setting.GFWListAutoUpdateMode = k.AutoUpdateAtIntervals ∨
      setting.Transparent = k.TransparentGfwlist
  · rw [if_pos hc, if_pos hc]
    by_cases hm : setting.GFWListAutoUpdateMode = k.AutoUpdateAtIntervals
    · rw [if_pos hm, if_pos hm]
      by_cases hd : hours setting.GFWListAutoUpdateIntervalHour ≤ 0
      · rw [if_pos hd, tickerReset_bad .TickerUpdateGFWList _
          ⟨ev, some p, some q, none⟩ p rfl hd]
        exact andThen_of_panicked _ _ _ rfl
      · rw [if_neg hd, tickerReset_ok .TickerUpdateGFWList _
          ⟨ev, some p, some q, none⟩ p rfl hd, andThen_of_running _ _ rfl]
        split_ifs <;> simp [Sched.emit, Sched.setPeriod]
    · rw [if_neg hm, if_neg hm, andThen_of_running _ _ rfl]
      split_ifs <;> simp [Sched.emit]
  · rw [if_neg hc, if_neg hc]

theorem checkSubscriptions_eq (k : ConfigureConsts) (setting : Setting) (ev : List UpdateEvent)
    (p q : Int) :
    checkSubscriptions k setting
        { events := ev, TickerUpdateGFWList := some p, TickerUpdateSubscription := some q,
          panicked := none } =
      if setting.SubscriptionAutoUpdateMode = k.AutoUpdate ∨
          setting.SubscriptionAutoUpdateMode = k.AutoUpdateAtIntervals then
        if setting.SubscriptionAutoUpdateMode = k.AutoUpdateAtIntervals then
          if hours setting.SubscriptionAutoUpdateIntervalHour ≤ 0 then
            { events := ev, TickerUpdateGFWList := some p, TickerUpdateSubscription := some q,
              panicked := some "non-positive interval for Ticker.Reset" }
          else
            { events := ev ++ [.reset .TickerUpdateSubscription
                  (hours setting.SubscriptionAutoUpdateIntervalHour), .go .updateSubscriptions],
              TickerUpdateGFWList := some p,
              TickerUpdateSubscription := some (hours setting.SubscriptionAutoUpdateIntervalHour),
              panicked := none }
        else
          { events := ev ++ [.go .updateSubscriptions], TickerUpdateGFWList := some p,
            TickerUpdateSubscription := some q, panicked := none }
      else
        { events := ev, TickerUpdateGFWList := some p, TickerUpdateSubscription := some q,
          panicked := none } := by
  unfold checkSubscriptions
  by_cases hc : setting.SubscriptionAutoUpdateMode = k.AutoUpdate ∨
      setting.SubscriptionAutoUpdateMode = k.AutoUpdateAtIntervals
  · rw [if_pos hc, if_pos hc]
    by_cases hm : setting.SubscriptionAutoUpdateMode = k.AutoUpdateAtIntervals
    · rw [if_pos hm, if_pos hm]
      by_cases hd : hours setting.SubscriptionAutoUpdateIntervalHour ≤ 0
      · rw [if_pos hd, tickerReset_bad .TickerUpdateSubscription _
          ⟨ev, some p, some q, none⟩ q rfl hd]
        exact andThen_of_panicked _ _ _ rfl
      · rw [if_neg hd, tickerReset_ok .TickerUpdateSubscription _
          ⟨ev, some p, some q, none⟩ q rfl hd, andThen_of_running _ _ rfl]
        simp [Sched.emit, Sched.setPeriod]
    · rw [if_neg hm, if_neg hm, andThen_of_running _ _ rfl]
      simp [Sched.emit]
  · rw [if_neg hc, if_neg hc]

theorem networkGate_quiet (r : Nat → List String × GoError) :
    ∀ (fuel n : Nat) (gate : List UpdateEvent), networkGate r fuel n = some gate →
      (∀ t, resetCount t gate = 0) ∧ (∀ task, spawnCount task gate = 0) := by
  intro fuel
  induction fuel with
  | zero => intro n gate h; simp [networkGate] at h
  | succ f ih =>
    intro n gate h
    rw [networkGate] at h
    by_cases hr : lookupReady (r n) = true
    · rw [if_pos hr] at h
      cases h
      exact ⟨fun t => by simp [resetCount], fun task => by simp [spawnCount]⟩
    · rw [if_neg hr] at h
      cases hg : networkGate r f (n + 1) with
      | none => simp [hg] at h
      | some rest =>
        simp only [hg, Option.map_some', Option.some.injEq] at h
        subst h
        have := ih (n + 1) rest hg
        refine ⟨fun t => ?_, fun task => ?_⟩
        · have h1 := this.1 t
          simp only [resetCount] at h1
          simp [resetCount, h1]
        · have h2 := this.2 task
          simp only [spawnCount] at h2
          simp [spawnCount, List.count_cons, h2]

theorem checkUpdate_some (k : ConfigureConsts) (w : UpdateWorld) (fuel : Nat) (s : Sched)
    (h : checkUpdate k w fuel = some s) :
    ∃ gate, networkGate w.lookupHost fuel 0 = some gate ∧
      s = (((checkGFWList k w.setting
              ⟨[.getSetting, .checkAndStopTransparentProxy] ++ gate ++
                [.logWarn "network is connected"] ++ tickerTrace,
              some placeholderPeriod, some placeholderPeriod, none⟩).andThen
            (checkSubscriptions k w.setting)).andThen
            (fun s => s.emit (.go .versionCheck))) := by
  unfold checkUpdate at h
  cases hg : networkGate w.lookupHost fuel 0 with
  | none => simp [hg] at h
  | some gate =>
    simp only [hg, Option.some.injEq] at h
    refine ⟨gate, rfl, ?_⟩
    rw [← h]
    unfold checkUpdateAfterGate
    rw [initUpdatingTicker_eq _ (by simp [Sched.emit])]
    have e : ∀ x : Sched, x.panicked = none →
        x.andThen (checkGFWList k w.setting) = checkGFWList k w.setting x :=
      fun x hx => andThen_of_running x _ hx
    rw [e _ rfl]
    simp [Sched.emit]

theorem hours_of_valid (h : Int) (h1 : 1 ≤ h) (h2 : h ≤ maxHours) :
    hours h = h * 3600000000000 ∧ ¬ hours h ≤ 0 := by
  unfold maxHours at h2
  have hx : (h * 3600000000000 + 9223372036854775808) % 18446744073709551616 =
      h * 3600000000000 + 9223372036854775808 :=
    Int.emod_eq_of_lt (by omega) (by omega)
  have he : hours h = h * 3600000000000 := by
    unfold hours wrap64 Hour Second
    norm_num
    rw [hx]
    omega
  rw [he]
  constructor
  · rfl
  · omega

theorem resetCount_append (t : TickerId) (a b : List UpdateEvent) :
    resetCount t (a ++ b) = resetCount t a + resetCount t b := by
  simp [resetCount]

theorem spawnCount_append (task : Task) (a b : List UpdateEvent) :
    spawnCount task (a ++ b) = spawnCount task a + spawnCount task b := by
  simp [spawnCount]

theorem resetCount_snoc_reset (t u : TickerId) (d : Int) (ev : List UpdateEvent) :
    resetCount t (ev ++ [.reset u d]) = resetCount t ev + (if u = t then 1 else 0) := by
  by_cases h : u = t <;> simp [resetCount, h]

theorem resetCount_snoc_go (t : TickerId) (task : Task) (ev : List UpdateEvent) :
    resetCount t (ev ++ [.go task]) = resetCount t ev := by
  simp [resetCount]

theorem resetCount_snoc_reset_go (t u : TickerId) (d : Int) (task : Task)
    (ev : List UpdateEvent) :
    resetCount t (ev ++ [.reset u d, .go task]) = resetCount t ev + (if u = t then 1 else 0) := by
  by_cases h : u = t <;> simp [resetCount, h]

theorem spawnCount_snoc_go (task v : Task) (ev : List UpdateEvent) :
    spawnCount task (ev ++ [.go v]) = spawnCount task ev + (if v = task then 1 else 0) := by
  by_cases h : v = task <;> simp [spawnCount, List.count_cons, h]

theorem spawnCount_snoc_reset (task : Task) (u : TickerId) (d : Int) (ev : List UpdateEvent) :
    spawnCount task (ev ++ [.reset u d]) = spawnCount task ev := by
  simp [spawnCount, List.count_cons]

theorem spawnCount_snoc_reset_go (task v : Task) (u : TickerId) (d : Int)
    (ev : List UpdateEvent) :
    spawnCount task (ev ++ [.reset u d, .go v]) =
      spawnCount task ev + (if v = task then 1 else 0) := by
  by_cases h : v = task <;> simp [spawnCount, List.count_cons, h]

/-- What the rule-list part of `checkUpdate` does to a running scheduler. -/
theorem checkGFWList_obs (k : ConfigureConsts) (setting : Setting) (ev : List UpdateEvent)
    (p q : Int) (s : Sched) (hs : s = checkGFWList k setting ⟨ev, some p, some q, none⟩) :
    resetCount .TickerUpdateSubscription s.events = resetCount .TickerUpdateSubscription ev ∧
    spawnCount .updateSubscriptions s.events = spawnCount .updateSubscriptions ev ∧
    s.TickerUpdateSubscription = some q ∧
    resetCount .TickerUpdateGFWList s.events ≤ resetCount .TickerUpdateGFWList ev + 1 ∧
    (resetCount .TickerUpdateGFWList ev < resetCount .TickerUpdateGFWList s.events →
      setting.GFWListAutoUpdateMode = k.AutoUpdateAtIntervals) ∧
    (setting.GFWListAutoUpdateMode ≠ k.AutoUpdateAtIntervals →
      s.panicked = none ∧ s.TickerUpdateGFWList = some p ∧
      resetCount .TickerUpdateGFWList s.events = resetCount .TickerUpdateGFWList ev) ∧
    (setting.GFWListAutoUpdateMode = k.AutoUpdateAtIntervals →
      ¬ hours setting.GFWListAutoUpdateIntervalHour ≤ 0 →
      s.panicked = none ∧
      s.TickerUpdateGFWList = some (hours setting.GFWListAutoUpdateIntervalHour) ∧
      resetCount .TickerUpdateGFWList s.events = resetCount .TickerUpdateGFWList ev + 1 ∧
      UpdateEvent.reset .TickerUpdateGFWList (hours setting.GFWListAutoUpdateIntervalHour) ∈
        s.events) ∧
    (setting.GFWListAutoUpdateMode = k.AutoUpdateAtIntervals →
      hours setting.GFWListAutoUpdateIntervalHour ≤ 0 →
      s = ⟨ev, some p, some q, some "non-positive interval for Ticker.Reset"⟩) ∧
    (s.panicked = none →
      (∃ p2, s = ⟨s.events, some p2, some q, none⟩) ∧
      ((setting.GFWListAutoUpdateMode = k.AutoUpdate ∨
          setting.GFWListAutoUpdateMode = k.AutoUpdateAtIntervals ∨
          setting.Transparent = k.TransparentGfwlist) →
        spawnCount .ruleListUpdate s.events = spawnCount .ruleListUpdate ev +
          (if setting.RulePortMode = k.GfwlistMode then 1 else 0)) ∧
      (¬ (setting.GFWListAutoUpdateMode = k.AutoUpdate ∨
          setting.GFWListAutoUpdateMode = k.AutoUpdateAtIntervals ∨
          setting.Transparent = k.TransparentGfwlist) →
        spawnCount .ruleListUpdate s.events = spawnCount .ruleListUpdate ev)) := by
  rw [checkGFWList_eq] at hs
  split_ifs at hs with c1 c2 c3 c4 c5 <;> subst hs <;>
    simp only [resetCount_snoc_reset, resetCount_snoc_go, resetCount_snoc_reset_go,
      spawnCount_snoc_go, spawnCount_snoc_reset, spawnCount_snoc_reset_go] <;>
    simp_all

/-- What the subscription part of `checkUpdate` does to a running scheduler. -/
theorem checkSubscriptions_obs (k : ConfigureConsts) (setting : Setting)
    (ev : List UpdateEvent) (p q : Int) (s : Sched)
    (hs : s = checkSubscriptions k setting ⟨ev, some p, some q, none⟩) :
    resetCount .TickerUpdateGFWList s.events = resetCount .TickerUpdateGFWList ev ∧
    spawnCount .ruleListUpdate s.events = spawnCount .ruleListUpdate ev ∧
    s.TickerUpdateGFWList = some p ∧
    (∀ e ∈ ev, e ∈ s.events) ∧
    resetCount .TickerUpdateSubscription s.events ≤
      resetCount .TickerUpdateSubscription ev + 1 ∧
    (resetCount .TickerUpdateSubscription ev < resetCount .TickerUpdateSubscription s.events →
      setting.SubscriptionAutoUpdateMode = k.AutoUpdateAtIntervals) ∧
    (setting.SubscriptionAutoUpdateMode ≠ k.AutoUpdateAtIntervals →
      s.panicked = none ∧ s.TickerUpdateSubscription = some q ∧
      resetCount .TickerUpdateSubscription s.events =
        resetCount .TickerUpdateSubscription ev) ∧
    (setting.SubscriptionAutoUpdateMode = k.AutoUpdateAtIntervals →
      ¬ hours setting.SubscriptionAutoUpdateIntervalHour ≤ 0 →
      s.panicked = none ∧
      s.TickerUpdateSubscription = some (hours setting.SubscriptionAutoUpdateIntervalHour) ∧
      resetCount .TickerUpdateSubscription s.events =
        resetCount .TickerUpdateSubscription ev + 1 ∧
      UpdateEvent.reset .TickerUpdateSubscription
          (hours setting.SubscriptionAutoUpdateIntervalHour) ∈ s.events) ∧
    (setting.SubscriptionAutoUpdateMode = k.AutoUpdateAtIntervals →
      hours setting.SubscriptionAutoUpdateIntervalHour ≤ 0 →
      s = ⟨ev, some p, some q, some "non-positive interval for Ticker.Reset"⟩) ∧
    (s.panicked = none →
      spawnCount .updateSubscriptions s.events = spawnCount .updateSubscriptions ev +
        (if setting.SubscriptionAutoUpdateMode = k.AutoUpdate ∨
            setting.SubscriptionAutoUpdateMode = k.AutoUpdateAtIntervals then 1 else 0)) := by
  rw [checkSubscriptions_eq] at hs
  split_ifs at hs with c1 c2 c3 <;> subst hs <;>
    simp only [resetCount_snoc_reset, resetCount_snoc_go, resetCount_snoc_reset_go,
      spawnCount_snoc_go, spawnCount_snoc_reset, spawnCount_snoc_reset_go] <;>
    simp_all

/-- What starting one more goroutine does, when the scheduler still runs. -/
theorem andThen_go_obs (s : Sched) (task : Task) :
    (s.andThen (fun x => x.emit (.go task))).panicked = s.panicked ∧
    (s.andThen (fun x => x.emit (.go task))).TickerUpdateGFWList = s.TickerUpdateGFWList ∧
    (s.andThen (fun x => x.emit (.go task))).TickerUpdateSubscription =
      s.TickerUpdateSubscription ∧
    (∀ t, resetCount t (s.andThen (fun x => x.emit (.go task))).events =
      resetCount t s.events) ∧
    (∀ v, v ≠ task → spawnCount v (s.andThen (fun x => x.emit (.go task))).events =
      spawnCount v s.events) ∧
    (∀ e ∈ s.events, e ∈ (s.andThen (fun x => x.emit (.go task))).events) := by
  unfold Sched.andThen
  split
  · simp
  · refine ⟨rfl, rfl, rfl, fun t => ?_, fun v hv => ?_, fun e he => ?_⟩
    · exact resetCount_snoc_go t task s.events
    · show spawnCount v (s.events ++ [.go task]) = spawnCount v s.events
      rw [spawnCount_snoc_go]
      simp [Ne.symm hv]
    · simp [Sched.emit, he]

theorem tickerTrace_quiet :
    (∀ t, resetCount t tickerTrace = 0) ∧ spawnCount .ruleListUpdate tickerTrace = 0 ∧
      spawnCount .updateSubscriptions tickerTrace = 0 := by
  refine ⟨fun t => ?_, ?_, ?_⟩ <;> simp [tickerTrace, resetCount, spawnCount, List.count_cons]

/-- The stages of `checkUpdate` once the network is there: the effects `ev` up
to and including `initUpdatingTicker`, the state `s1` after the rule-list part,
the state `s2` after the subscription part, and the final state. -/
theorem checkUpdate_stages (k : ConfigureConsts) (w : UpdateWorld) (fuel : Nat) (s : Sched)
    (h : checkUpdate k w fuel = some s) :
    ∃ (ev : List UpdateEvent) (s1 s2 : Sched),
      (∀ t, resetCount t ev = 0) ∧ spawnCount .ruleListUpdate ev = 0 ∧
      spawnCount .updateSubscriptions ev = 0 ∧
      s1 = checkGFWList k w.setting ⟨ev, some placeholderPeriod, some placeholderPeriod, none⟩ ∧
      s2 = s1.andThen (checkSubscriptions k w.setting) ∧
      s = s2.andThen (fun x => x.emit (.go .versionCheck)) := by
  obtain ⟨gate, hg, hs⟩ := checkUpdate_some k w fuel s h
  have hq := networkGate_quiet _ _ _ _ hg
  have ht := tickerTrace_quiet
  refine ⟨_, _, _, ?_, ?_, ?_, rfl, rfl, hs⟩
  · intro t
    rw [resetCount_append, resetCount_append, resetCount_append, hq.1 t, ht.1 t]
    simp [resetCount]
  · rw [spawnCount_append, spawnCount_append, spawnCount_append, hq.2 _, ht.2.1]
    simp [spawnCount, List.count_cons]
  · rw [spawnCount_append, spawnCount_append, spawnCount_append, hq.2 _, ht.2.2]
    simp [spawnCount, List.count_cons]

/-- C7 (as the code has it): once the network is there, `checkUpdate` resets
each of the two timers at most once, and only in the mode
`AutoUpdateAtIntervals`. When every interval that is used lies between 1 and
2562047 hours, `checkUpdate` does not fail, the timer of a category in the mode
`AutoUpdateAtIntervals` is reset exactly once, to exactly `h` hours
(`h * 3600000000000` ns), and the timer of a category in any other mode is not
reset and keeps the period `24 * time.Hour * 365 * 100`, which is
3153600000000000000 ns and fits in an `int64`. -/
theorem checkUpdate_timers (k : ConfigureConsts) (w : UpdateWorld) (fuel : Nat) (s : Sched)
    (h : checkUpdate k w fuel = some s) :
    (resetCount .TickerUpdateGFWList s.events ≤ 1 ∧
      resetCount .TickerUpdateSubscription s.events ≤ 1) ∧
    (0 < resetCount .TickerUpdateGFWList s.events →
      w.setting.GFWListAutoUpdateMode = k.AutoUpdateAtIntervals) ∧
    (0 < resetCount .TickerUpdateSubscription s.events →
      w.setting.SubscriptionAutoUpdateMode = k.AutoUpdateAtIntervals) ∧
    ((w.setting.GFWListAutoUpdateMode = k.AutoUpdateAtIntervals →
        1 ≤ w.setting.GFWListAutoUpdateIntervalHour ∧
        w.setting.GFWListAutoUpdateIntervalHour ≤ maxHours) →
      (w.setting.GFWListAutoUpdateMode = k.AutoUpdateAtIntervals →
        resetCount .TickerUpdateGFWList s.events = 1 ∧
        UpdateEvent.reset .TickerUpdateGFWList
          (w.setting.GFWListAutoUpdateIntervalHour * 3600000000000) ∈ s.events ∧
        s.TickerUpdateGFWList =
          some (w.setting.GFWListAutoUpdateIntervalHour * 3600000000000)) ∧
      (w.setting.GFWListAutoUpdateMode ≠ k.AutoUpdateAtIntervals →
        resetCount .TickerUpdateGFWList s.events = 0 ∧
        s.TickerUpdateGFWList = some placeholderPeriod) ∧
      ((w.setting.SubscriptionAutoUpdateMode = k.AutoUpdateAtIntervals →
          1 ≤ w.setting.SubscriptionAutoUpdateIntervalHour ∧
          w.setting.SubscriptionAutoUpdateIntervalHour ≤ maxHours) →
        s.panicked = none ∧
        (w.setting.SubscriptionAutoUpdateMode = k.AutoUpdateAtIntervals →
          resetCount .TickerUpdateSubscription s.events = 1 ∧
          UpdateEvent.reset .TickerUpdateSubscription
            (w.setting.SubscriptionAutoUpdateIntervalHour * 3600000000000) ∈ s.events ∧
          s.TickerUpdateSubscription =
            some (w.setting.SubscriptionAutoUpdateIntervalHour * 3600000000000)) ∧
        (w.setting.SubscriptionAutoUpdateMode ≠ k.AutoUpdateAtIntervals →
          resetCount .TickerUpdateSubscription s.events = 0 ∧
          s.TickerUpdateSubscription = some placeholderPeriod))) ∧
    (placeholderPeriod = 24 * Hour * 365 * 100 ∧ placeholderPeriod = 3153600000000000000 ∧
      placeholderPeriod < 2 ^ 63) := by
  obtain ⟨ev, s1, s2, hev, -, -, hs1, hs2, hs⟩ := checkUpdate_stages k w fuel s h
  obtain ⟨a1, -, a3, a4, a5, a6, a7, a8, a9⟩ :=
    checkGFWList_obs k w.setting ev placeholderPeriod placeholderPeriod s1 hs1
  obtain ⟨f1, f2, f3, f4, -, f6⟩ := andThen_go_obs s2 .versionCheck
  rw [← hs] at f1 f2 f3 f4 f6
  have hG0 := hev .TickerUpdateGFWList
  have hS0 := hev .TickerUpdateSubscription
  have hplace : placeholderPeriod = 24 * Hour * 365 * 100 ∧
      placeholderPeriod = 3153600000000000000 ∧ placeholderPeriod < 2 ^ 63 := by
    refine ⟨?_, placeholderPeriod_eq, ?_⟩
    · rw [placeholderPeriod_eq]; norm_num [Hour, Second]
    · rw [placeholderPeriod_eq]; norm_num
  cases hp1 : s1.panicked with
  | some m =>
    -- the reset of the rule-list timer panicked: nothing else ran
    have h2 : s2 = s1 := by rw [hs2]; exact andThen_of_panicked _ _ m hp1
    have hmode : w.setting.GFWListAutoUpdateMode = k.AutoUpdateAtIntervals := by
      by_contra hne
      rw [(a6 hne).1] at hp1
      cases hp1
    have hbad : hours w.setting.GFWListAutoUpdateIntervalHour ≤ 0 := by
      by_contra hne
      rw [(a7 hmode hne).1] at hp1
      cases hp1
    have hs1eq := a8 hmode hbad
    have hGs : resetCount .TickerUpdateGFWList s.events = 0 := by
      rw [f4, h2, hs1eq]; exact hG0
    have hSs : resetCount .TickerUpdateSubscription s.events = 0 := by
      rw [f4, h2, hs1eq]; exact hS0
    refine ⟨⟨by omega, by omega⟩, fun hpos => by omega, fun hpos => by omega, ?_, hplace⟩
    intro hvalid
    have := (hours_of_valid _ (hvalid hmode).1 (hvalid hmode).2).2
    exact absurd hbad this
  | none =>
    obtain ⟨⟨p2, hs1eq⟩, -, -⟩ := a9 hp1
    have h2 : s2 = checkSubscriptions k w.setting ⟨s1.events, some p2, some placeholderPeriod,
        none⟩ := by
      rw [hs2, andThen_of_running _ _ hp1]
      exact congrArg _ hs1eq
    obtain ⟨b1, -, b3, b4, b5, b6, b7, b8, b9, -⟩ :=
      checkSubscriptions_obs k w.setting s1.events p2 placeholderPeriod s2 h2
    have hp2 : s1.TickerUpdateGFWList = some p2 := by rw [hs1eq]
    have hGs : resetCount .TickerUpdateGFWList s.events =
        resetCount .TickerUpdateGFWList s1.events := by rw [f4, b1]
    have hSs : resetCount .TickerUpdateSubscription s.events =
        resetCount .TickerUpdateSubscription s2.events := f4 _
    refine ⟨⟨by omega, by omega⟩, fun hpos => a5 (by omega), fun hpos => b6 (by omega), ?_,
      hplace⟩
    intro hvalidG
    refine ⟨fun hm => ?_, fun hm => ?_, fun hvalidS => ?_⟩
    · obtain ⟨he, hpos⟩ := hours_of_valid _ (hvalidG hm).1 (hvalidG hm).2
      obtain ⟨-, c2, c3, c4⟩ := a7 hm hpos
      rw [he] at c2 c4
      refine ⟨by omega, f6 _ (b4 _ c4), ?_⟩
      rw [f2, b3, ← hp2, c2]
    · obtain ⟨-, c2, c3⟩ := a6 hm
      refine ⟨by omega, ?_⟩
      rw [f2, b3, ← hp2, c2]
    · by_cases hm : w.setting.SubscriptionAutoUpdateMode = k.AutoUpdateAtIntervals
      · obtain ⟨he, hpos⟩ := hours_of_valid _ (hvalidS hm).1 (hvalidS hm).2
        obtain ⟨c1, c2, c3, c4⟩ := b8 hm hpos
        rw [he] at c2 c4
        refine ⟨by rw [f1, c1], fun _ => ⟨by omega, f6 _ c4, by rw [f3, c2]⟩,
          fun hne => absurd hm hne⟩
      · obtain ⟨c1, c2, c3⟩ := b7 hm
        refine ⟨by rw [f1, c1], fun he => absurd he hm, fun _ => ⟨by omega, by rw [f3, c2]⟩⟩

/-- C7, witness: intervals of 6 and 12 hours. -/
theorem checkUpdate_timers_witness :
    checkUpdate sampleConsts ⟨intervalSetting, online⟩ 1 = some intervalRun ∧
      intervalRun.panicked = none ∧
      resetCount .TickerUpdateGFWList intervalRun.events = 1 ∧
      intervalRun.TickerUpdateGFWList = some (6 * 3600000000000) ∧
      resetCount .TickerUpdateSubscription intervalRun.events = 1 ∧
      intervalRun.TickerUpdateSubscription = some (12 * 3600000000000) := by
  have hs : checkUpdate sampleConsts ⟨intervalSetting, online⟩ 1 = some intervalRun := rfl
  have h := (checkUpdate_timers sampleConsts ⟨intervalSetting, online⟩ 1 intervalRun hs).2.2.2.1
    (fun _ => ⟨by decide, by decide⟩)
  have hS := h.2.2 (fun _ => ⟨by decide, by decide⟩)
  exact ⟨hs, hS.1, (h.1 rfl).1, (h.1 rfl).2.2, (hS.2.1 rfl).1, (hS.2.1 rfl).2.2⟩

/-- C7, counterexample: with the mode `AutoUpdateAtIntervals` and an interval
of 2562048 hours the product `time.Duration(h) * time.Hour` wraps to a negative
`int64`, and with an interval of 0 hours it is 0; in both cases `Reset` panics,
the timer is not reset and keeps its first period. -/
theorem checkUpdate_interval_out_of_range :
    overflowSetting.GFWListAutoUpdateMode = sampleConsts.AutoUpdateAtIntervals ∧
    zeroSetting.GFWListAutoUpdateMode = sampleConsts.AutoUpdateAtIntervals ∧
    hours 2562048 = -9223371273709551616 ∧
    gfwTimerSummary (checkUpdate sampleConsts ⟨overflowSetting, online⟩ 1) =
      some (some "non-positive interval for Ticker.Reset", 0, some 3153600000000000000) ∧
    gfwTimerSummary (checkUpdate sampleConsts ⟨zeroSetting, online⟩ 1) =
      some (some "non-positive interval for Ticker.Reset", 0, some 3153600000000000000) := by
  refine ⟨rfl, rfl, by decide, by decide, by decide⟩

/-- C6 (as the code has it): for every setting whose rule-list mode is
`AutoUpdate`, or `AutoUpdateAtIntervals` with an interval between 1 and
2562047 hours, `checkUpdate`, once the network is there, starts exactly one
immediate rule-list update when `RulePortMode` is `GfwlistMode` and none for
any other `RulePortMode`, whatever the other fields are. -/
theorem checkUpdate_rule_list_update (k : ConfigureConsts) (w : UpdateWorld) (fuel : Nat)
    (s : Sched) (h : checkUpdate k w fuel = some s)
    (hmode : w.setting.GFWListAutoUpdateMode = k.AutoUpdate ∨
      w.setting.GFWListAutoUpdateMode = k.AutoUpdateAtIntervals)
    (hvalid : w.setting.GFWListAutoUpdateMode = k.AutoUpdateAtIntervals →
      1 ≤ w.setting.GFWListAutoUpdateIntervalHour ∧
      w.setting.GFWListAutoUpdateIntervalHour ≤ maxHours) :
    spawnCount .ruleListUpdate s.events =
      if w.setting.RulePortMode = k.GfwlistMode then 1 else 0 := by
  obtain ⟨ev, s1, s2, -, hev, -, hs1, hs2, hs⟩ := checkUpdate_stages k w fuel s h
  obtain ⟨-, -, -, -, -, a6, a7, -, a9⟩ :=
    checkGFWList_obs k w.setting ev placeholderPeriod placeholderPeriod s1 hs1
  obtain ⟨-, -, -, -, f5, -⟩ := andThen_go_obs s2 .versionCheck
  rw [← hs] at f5
  have hp1 : s1.panicked = none := by
    by_cases hm : w.setting.GFWListAutoUpdateMode = k.AutoUpdateAtIntervals
    · exact (a7 hm (hours_of_valid _ (hvalid hm).1 (hvalid hm).2).2).1
    · exact (a6 hm).1
  obtain ⟨⟨p2, hs1eq⟩, hspawn, -⟩ := a9 hp1
  have h2 : s2 = checkSubscriptions k w.setting ⟨s1.events, some p2, some placeholderPeriod,
      none⟩ := by
    rw [hs2, andThen_of_running _ _ hp1]
    exact congrArg _ hs1eq
  obtain ⟨-, b2, -⟩ :=
    checkSubscriptions_obs k w.setting s1.events p2 placeholderPeriod s2 h2
  have hcond : w.setting.GFWListAutoUpdateMode = k.AutoUpdate ∨
      w.setting.GFWListAutoUpdateMode = k.AutoUpdateAtIntervals ∨
      w.setting.Transparent = k.TransparentGfwlist := by
    rcases hmode with hm | hm
    · exact Or.inl hm
    · exact Or.inr (Or.inl hm)
  rw [f5 _ (by decide), b2, hspawn hcond, hev, Nat.zero_add]

/-- C6, witness: the mode `AutoUpdateAtIntervals` with 6 hours and the routing
rule `gfwlist` start one rule-list update. -/
theorem checkUpdate_rule_list_update_witness :
    checkUpdate sampleConsts ⟨intervalSetting, online⟩ 1 = some intervalRun ∧
      spawnCount .ruleListUpdate intervalRun.events = 1 :=
  ⟨rfl, checkUpdate_rule_list_update sampleConsts ⟨intervalSetting, online⟩ 1 intervalRun rfl
    (Or.inr rfl) (fun _ => ⟨by decide, by decide⟩)⟩

/-- C6, counterexample: with the mode `AutoUpdate` and the routing rule
`whitelist`, `checkUpdate` starts no rule-list update. -/
theorem checkUpdate_no_rule_list_update :
    whitelistSetting.GFWListAutoUpdateMode = sampleConsts.AutoUpdate ∧
    (checkUpdate sampleConsts ⟨whitelistSetting, online⟩ 1).map
      (fun s => (s.panicked, spawnCount .ruleListUpdate s.events)) = some (none, 0) := by
  refine ⟨rfl, by decide⟩

/-! ### `run` -/

/-- C9: when the value read from `errch` is `nil`, `run` stops the transparent
proxy, stops the engine with `force = false`, closes the storage, each once and
in this order, as its last effects, and returns `nil`, whatever the results of
these calls and of the start of the engine; when the value is an error, `run`
ends in `log.Fatal` and performs none of the three. -/
theorem run_shutdown (w : RunWorld) :
    (w.received = none →
      (run w).2 = .returns none ∧
      shutdownSteps (run w).1 =
        [.checkAndStopTransparentProxy, .stopV2rayService false, .dbClose] ∧
      ∃ before, shutdownSteps before = [] ∧
        (run w).1 = before ++
          [.checkAndStopTransparentProxy, .stopV2rayService false, .dbClose]) ∧
    (∀ e, w.received = some e →
      (run w).2 = .fatal "run: %v" [e] ∧ shutdownSteps (run w).1 = []) := by
  constructor
  · intro h
    unfold run
    rw [h]
    refine ⟨rfl, ?_, ?_⟩
    · cases w.getRunning <;> cases w.updateV2RayConfig <;> simp [shutdownSteps]
    · refine ⟨(if w.getRunning then
          match w.updateV2RayConfig with
          | some e => [.updateV2RayConfig, .logError "failed to start v2ray-core: %v" [e]]
          | none => [.updateV2RayConfig]
        else []) ++ [.makeChan, .go .apiService, .go .signalListener, .receive,
          .println "Quitting..."], ?_, ?_⟩
      · cases w.getRunning <;> cases w.updateV2RayConfig <;> simp [shutdownSteps]
      · simp
  · intro e h
    unfold run
    rw [h]
    refine ⟨rfl, ?_⟩
    cases w.getRunning <;> cases w.updateV2RayConfig <;> simp [shutdownSteps]

/-- C9, witness: the engine fails to start, a signal ends the wait, and all
shutdown calls return errors. -/
theorem run_shutdown_witness :
    (run failingWorld).2 = .returns none ∧
      shutdownSteps (run failingWorld).1 =
        [.checkAndStopTransparentProxy, .stopV2rayService false, .dbClose] :=
  ⟨((run_shutdown failingWorld).1 rfl).1, ((run_shutdown failingWorld).1 rfl).2.1⟩

/-! ### The channel `errch` -/

theorem chanStep_after_delivery (r : GoError) (a : Actor) (s t : ChanState) (v : GoError)
    (h : chanStep r a s = some t) (hv : s.delivered = some v) :
    t.delivered = some v ∧ t.completedWrites = s.completedWrites ∧
      ∀ w u, s.writer w = .sending u → t.writer w = .sending u := by
  obtain ⟨api, sig, coord⟩ := s
  cases coord with
  | receiving => simp [ChanState.delivered] at hv
  | received x =>
    cases a with
    | coordinator =>
      cases x with
      | none =>
        simp [chanStep, ChanState.alive] at h
        subst h
        simp_all [ChanState.delivered, ChanState.completedWrites, ChanState.writer]
      | some e =>
        simp [chanStep, ChanState.alive] at h
        subst h
        simp_all [ChanState.delivered, ChanState.completedWrites, ChanState.writer]
    | writer w =>
      cases w with
      | apiService =>
        cases api with
        | running =>
          simp [chanStep, ChanState.alive, ChanState.writer, ChanState.setWriter] at h
          subst h
          refine ⟨by simpa [ChanState.delivered] using hv, by simp [ChanState.completedWrites],
            ?_⟩
          intro w u hw
          cases w <;> simp_all [ChanState.writer]
        | sending u => simp [chanStep, ChanState.alive, ChanState.writer] at h
        | done => simp [chanStep, ChanState.alive, ChanState.writer] at h
      | signalListener =>
        cases sig with
        | running =>
          simp [chanStep, ChanState.alive, ChanState.writer, ChanState.setWriter] at h
          subst h
          refine ⟨by simpa [ChanState.delivered] using hv, by simp [ChanState.completedWrites],
            ?_⟩
          intro w u hw
          cases w <;> simp_all [ChanState.writer]
        | sending u => simp [chanStep, ChanState.alive, ChanState.writer] at h
        | done => simp [chanStep, ChanState.alive, ChanState.writer] at h
  | returned =>
    cases a with
    | coordinator => simp [chanStep, ChanState.alive] at h
    | writer w =>
      cases w with
      | apiService =>
        cases api with
        | running =>
          simp [chanStep, ChanState.alive, ChanState.writer, ChanState.setWriter] at h
          subst h
          refine ⟨by simpa [ChanState.delivered] using hv, by simp [ChanState.completedWrites],
            ?_⟩
          intro w u hw
          cases w <;> simp_all [ChanState.writer]
        | sending u => simp [chanStep, ChanState.alive, ChanState.writer] at h
        | done => simp [chanStep, ChanState.alive, ChanState.writer] at h
      | signalListener =>
        cases sig with
        | running =>
          simp [chanStep, ChanState.alive, ChanState.writer, ChanState.setWriter] at h
          subst h
          refine ⟨by simpa [ChanState.delivered] using hv, by simp [ChanState.completedWrites],
            ?_⟩
          intro w u hw
          cases w <;> simp_all [ChanState.writer]
        | sending u => simp [chanStep, ChanState.alive, ChanState.writer] at h
        | done => simp [chanStep, ChanState.alive, ChanState.writer] at h
  | exited e => simp [chanStep, ChanState.alive] at h

theorem chanExec_after_delivery (r : GoError) (schedule : List Actor) :
    ∀ (s t : ChanState) (v : GoError), chanExec r schedule s = some t →
      s.delivered = some v →
      t.delivered = some v ∧ t.completedWrites = s.completedWrites ∧
        ∀ w u, s.writer w = .sending u → t.writer w = .sending u := by
  induction schedule with
  | nil =>
    intro s t v h hv
    simp only [chanExec, Option.some.injEq] at h
    subst h
    exact ⟨hv, rfl, fun _ _ hw => hw⟩
  | cons a rest ih =>
    intro s t v h hv
    rw [chanExec] at h
    cases hstep : chanStep r a s with
    | none => simp [hstep] at h
    | some m =>
      simp only [hstep] at h
      obtain ⟨h1, h2, h3⟩ := chanStep_after_delivery r a s m v hstep hv
      obtain ⟨g1, g2, g3⟩ := ih m t v h h1
      exact ⟨g1, g2.trans h2, fun w u hw => g3 w u (h3 w u hw)⟩

theorem chanStep_inv (r : GoError) (a : Actor) (s t : ChanState)
    (h : chanStep r a s = some t) (hi : chanInv s) : chanInv t := by
  cases hd : s.delivered with
  | some v =>
    obtain ⟨h1, h2, -⟩ := chanStep_after_delivery r a s t v h hd
    unfold chanInv at *
    rw [h1, h2, hi, hd]
  | none =>
    obtain ⟨api, sig, coord⟩ := s
    cases coord with
    | receiving =>
      unfold chanInv at hi
      simp only [ChanState.delivered, Option.isSome_none, Bool.false_eq_true, if_false] at hi
      cases a with
      | coordinator => simp [chanStep, ChanState.alive] at h
      | writer w =>
        cases w with
        | apiService =>
          cases api with
          | running =>
            simp [chanStep, ChanState.alive, ChanState.writer, ChanState.setWriter] at h
            subst h
            simp_all [chanInv, ChanState.delivered, ChanState.completedWrites]
          | sending u =>
            simp [chanStep, ChanState.alive, ChanState.writer, ChanState.setWriter] at h
            subst h
            simp_all [chanInv, ChanState.delivered, ChanState.completedWrites]
          | done => simp [chanStep, ChanState.alive, ChanState.writer] at h
        | signalListener =>
          cases sig with
          | running =>
            simp [chanStep, ChanState.alive, ChanState.writer, ChanState.setWriter] at h
            subst h
            simp_all [chanInv, ChanState.delivered, ChanState.completedWrites]
          | sending u =>
            simp [chanStep, ChanState.alive, ChanState.writer, ChanState.setWriter] at h
            subst h
            simp_all [chanInv, ChanState.delivered, ChanState.completedWrites]
          | done => simp [chanStep, ChanState.alive, ChanState.writer] at h
    | received x => simp [ChanState.delivered] at hd
    | returned => simp [ChanState.delivered] at hd
    | exited e => simp [ChanState.delivered] at hd

theorem chanExec_inv (r : GoError) (schedule : List Actor) :
    ∀ (s t : ChanState), chanExec r schedule s = some t → chanInv s → chanInv t := by
  induction schedule with
  | nil =>
    intro s t h hi
    simp only [chanExec, Option.some.injEq] at h
    subst h
    exact hi
  | cons a rest ih =>
    intro s t h hi
    rw [chanExec] at h
    cases hstep : chanStep r a s with
    | none => simp [hstep] at h
    | some m =>
      simp only [hstep] at h
      exact ih m t h (chanStep_inv r a s m hstep hi)

/-- C10 (as the code has it): in every reachable state of the goroutines
around `errch`, exactly the write that the coordinator has read has completed;
and once the coordinator has read a value `v`, in every later state the value
it has read is still `v`, no further write has completed, and a writer that is
at its send is still at its send: the second write neither completes nor is
dropped. -/
theorem completion_signal (apiResult : GoError) (s : ChanState)
    (hs : ChanReachable apiResult s) :
    s.completedWrites = (if s.delivered.isSome then 1 else 0) ∧
    ∀ v, s.delivered = some v → ∀ schedule t, chanExec apiResult schedule s = some t →
      t.delivered = some v ∧ t.completedWrites = 1 ∧
      ∀ w u, s.writer w = .sending u → t.writer w = .sending u := by
  obtain ⟨sched, hsched⟩ := hs
  have hi : chanInv s :=
    chanExec_inv apiResult sched ChanState.init s hsched (by
      simp [chanInv, ChanState.init, ChanState.completedWrites, ChanState.delivered])
  refine ⟨hi, ?_⟩
  intro v hv schedule t ht
  obtain ⟨h1, h2, h3⟩ := chanExec_after_delivery apiResult schedule s t v ht hv
  refine ⟨h1, ?_, h3⟩
  unfold chanInv at hi
  rw [h2, hi, hv]
  rfl

/-- C10, witness: a signal arrives and is read, then `router.Run()` returns
`nil`; whatever steps follow, the API service is still at its send. -/
theorem completion_signal_witness :
    chanExec none [.writer .signalListener, .writer .signalListener, .writer .apiService]
        ChanState.init = some lateWriter ∧
      chanExec none [.coordinator] lateWriter =
        some { lateWriter with coordinator := .returned } ∧
      ({ lateWriter with coordinator := .returned } : ChanState).apiService = .sending none := by
  have h := (completion_signal none lateWriter
    ⟨[.writer .signalListener, .writer .signalListener, .writer .apiService], by decide⟩).2
    none rfl [.coordinator] { lateWriter with coordinator := .returned } (by decide)
  exact ⟨by decide, by decide, h.2.2 .apiService none rfl⟩

/-- C10, counterexample: a signal arrives and is read by the coordinator, then
`router.Run()` returns `nil`. The API service is at `errch <- nil` after the
coordinator has read its value, and in every state that any schedule reaches
from there it is still at that send: the write never completes and is never
dropped. -/
theorem late_writer_blocked :
    chanExec none [.writer .signalListener, .writer .signalListener, .writer .apiService]
        ChanState.init = some lateWriter ∧
      lateWriter.delivered = some none ∧
      lateWriter.apiService = .sending none ∧
      (∀ schedule t, chanExec none schedule lateWriter = some t →
        t.apiService = .sending none ∧ t.apiService ≠ .done) := by
  refine ⟨by decide, rfl, rfl, ?_⟩
  intro schedule t ht
  have h := (chanExec_after_delivery none schedule lateWriter t none ht rfl).2.2
    .apiService none rfl
  have h2 : t.apiService = .sending none := h
  rw [h2]
  exact ⟨rfl, by decide⟩

/-! ### `updateSubscriptions` -/

theorem countP_set_add {α : Type} (p : α → Bool) (l : List α) :
    ∀ (j : Nat) (a b : α), l[j]? = some a →
      (l.set j b).countP p + (if p a then 1 else 0) = l.countP p + (if p b then 1 else 0) := by
  induction l with
  | nil => intro j a b h; simp at h
  | cons x rest ih =>
    intro j a b h
    cases j with
    | zero =>
      simp only [List.getElem?_cons_zero, Option.some.injEq] at h
      subst h
      simp only [List.set_cons_zero, List.countP_cons]
      omega
    | succ j =>
      simp only [List.getElem?_cons_succ] at h
      have := ih j a b h
      simp only [List.set_cons_succ, List.countP_cons]
      omega

/-- The steps of a worker, one by one. -/
theorem workerStep_cases (w : PoolWorld) (j : Nat) (s t : PoolState)
    (h : workerStep w j s = some t) :
    ∃ i pc, s.workers[j]? = some ⟨i, pc⟩ ∧
      ((pc = .acquire ∧ s.control < controlCap ∧
          t = { s with control := s.control + 1, workers := s.workers.set j ⟨i, .call⟩ }) ∨
        (pc = .call ∧
          t = { s with calls := s.calls ++ [(i, false)],
                       workers := s.workers.set j ⟨i, .refreshing⟩ }) ∨
        (pc = .refreshing ∧ ∃ line,
          t = { s with completed := s.completed ++ [i], logs := s.logs ++ [line],
                       workers := s.workers.set j ⟨i, .signal⟩ }) ∨
        (pc = .refreshing ∧ w.subs[i]? = none ∧
          t = { s with completed := s.completed ++ [i], panicked := true }) ∨
        (pc = .signal ∧ s.wg = 0 ∧ t = { s with panicked := true }) ∨
        (pc = .signal ∧ s.wg ≠ 0 ∧
          t = { s with wg := s.wg - 1, workers := s.workers.set j ⟨i, .release⟩ }) ∨
        (pc = .release ∧ 0 < s.control ∧
          t = { s with control := s.control - 1,
                       workers := s.workers.set j ⟨i, .finished⟩ })) := by
  unfold workerStep at h
  cases hj : s.workers[j]? with
  | none => simp [hj] at h
  | some wk =>
    obtain ⟨i, pc⟩ := wk
    refine ⟨i, pc, rfl, ?_⟩
    simp only [hj] at h
    cases pc with
    | acquire =>
      simp only [] at h
      split_ifs at h with hc
      simp only [Option.some.injEq] at h
      exact Or.inl ⟨rfl, hc, h.symm⟩
    | call =>
      simp only [Option.some.injEq] at h
      exact Or.inr (Or.inl ⟨rfl, h.symm⟩)
    | refreshing =>
      simp only [] at h
      cases hu : w.updateSubscription i false with
      | some err =>
        simp only [hu, Option.some.injEq] at h
        exact Or.inr (Or.inr (Or.inl ⟨rfl, _, h.symm⟩))
      | none =>
        simp only [hu] at h
        cases hsub : w.subs[i]? with
        | some sub =>
          simp only [hsub, Option.some.injEq] at h
          exact Or.inr (Or.inr (Or.inl ⟨rfl, _, h.symm⟩))
        | none =>
          simp only [hsub, Option.some.injEq] at h
          exact Or.inr (Or.inr (Or.inr (Or.inl ⟨rfl, rfl, h.symm⟩)))
    | signal =>
      simp only [] at h
      split_ifs at h with hc
      · simp only [Option.some.injEq] at h
        exact Or.inr (Or.inr (Or.inr (Or.inr (Or.inl ⟨rfl, hc, h.symm⟩))))
      · simp only [Option.some.injEq] at h
        exact Or.inr (Or.inr (Or.inr (Or.inr (Or.inr (Or.inl ⟨rfl, hc, h.symm⟩)))))
    | release =>
      simp only [] at h
      split_ifs at h with hc
      simp only [Option.some.injEq] at h
      exact Or.inr (Or.inr (Or.inr (Or.inr (Or.inr (Or.inr ⟨rfl, hc, h.symm⟩)))))
    | finished => simp at h

/-- The steps of the goroutine of `updateSubscriptions`, one by one. -/
theorem mainStep_cases (w : PoolWorld) (s t : PoolState) (h : mainStep w s = some t) :
    (∃ i, s.main = .loop i ∧ i < w.subs.length ∧
        t = { s with wg := s.wg + 1, main := .spawn i }) ∨
      (∃ i, s.main = .loop i ∧ ¬ i < w.subs.length ∧ t = { s with main := .wait }) ∨
      (∃ i, s.main = .spawn i ∧
        t = { s with workers := s.workers ++ [{ i := i, pc := .acquire }],
                     main := .loop (i + 1) }) ∨
      (s.main = .wait ∧ s.wg = 0 ∧ t = { s with main := .returned }) := by
  unfold mainStep at h
  cases hm : s.main with
  | loop i =>
    simp only [hm] at h
    split_ifs at h with hc
    · simp only [Option.some.injEq] at h
      exact Or.inl ⟨i, rfl, hc, h.symm⟩
    · simp only [Option.some.injEq] at h
      exact Or.inr (Or.inl ⟨i, rfl, hc, h.symm⟩)
  | spawn i =>
    simp only [hm, Option.some.injEq] at h
    exact Or.inr (Or.inr (Or.inl ⟨i, rfl, h.symm⟩))
  | wait =>
    simp only [hm] at h
    split_ifs at h with hc
    simp only [Option.some.injEq] at h
    exact Or.inr (Or.inr (Or.inr ⟨rfl, hc, h.symm⟩))
  | returned => simp [hm] at h

theorem getElem?_set_cases {α : Type} (l : List α) (j j2 : Nat) (a b x : α)
    (hj : l[j]? = some a) (h : (l.set j b)[j2]? = some x) :
    (j2 = j ∧ x = b) ∨ (j2 ≠ j ∧ l[j2]? = some x) := by
  rw [List.getElem?_set] at h
  by_cases e : j = j2
  · have hlt : j < l.length := (List.getElem?_eq_some.1 hj).1
    simp only [e, if_true] at h
    rw [← e] at h
    simp only [hlt, if_true, Option.some.injEq] at h
    exact Or.inl ⟨e.symm, h.symm⟩
  · simp only [e, if_false] at h
    exact Or.inr ⟨fun h2 => e h2.symm, h⟩

theorem args_set (l : List Worker) (j i : Nat) (pc pc2 : WorkerPc)
    (hargs : ∀ (j : Nat) (wk : Worker), l[j]? = some wk → wk.i = j) (hj : l[j]? = some ⟨i, pc⟩) :
    ∀ (j2 : Nat) (wk : Worker), (l.set j ⟨i, pc2⟩)[j2]? = some wk → wk.i = j2 := by
  intro j2 wk h
  rcases getElem?_set_cases l j j2 _ _ wk hj h with ⟨e, hx⟩ | ⟨-, hx⟩
  · rw [hx, e]
    exact hargs j ⟨i, pc⟩ hj
  · exact hargs j2 wk hx

theorem once_set_same {α : Type} [BEq α] [LawfulBEq α] (f : WorkerPc → Bool) (key : Nat → α)
    (log : List α) (l : List Worker) (j i : Nat) (pc pc2 : WorkerPc)
    (hinv : ∀ (j : Nat) (wk : Worker), l[j]? = some wk → log.count (key j) = if f wk.pc then 1 else 0)
    (hj : l[j]? = some ⟨i, pc⟩) (hf : f pc2 = f pc) :
    ∀ (j2 : Nat) (wk : Worker), (l.set j ⟨i, pc2⟩)[j2]? = some wk →
      log.count (key j2) = if f wk.pc then 1 else 0 := by
  intro j2 wk h
  rcases getElem?_set_cases l j j2 _ _ wk hj h with ⟨e, hx⟩ | ⟨-, hx⟩
  · rw [hx, e]
    simpa [hf] using hinv j _ hj
  · exact hinv j2 wk hx

theorem once_set_add {α : Type} [BEq α] [LawfulBEq α] (f : WorkerPc → Bool) (key : Nat → α)
    (hkey : ∀ a b, key a = key b → a = b)
    (log : List α) (l : List Worker) (j i : Nat) (pc pc2 : WorkerPc)
    (hinv : ∀ (j : Nat) (wk : Worker), l[j]? = some wk → log.count (key j) = if f wk.pc then 1 else 0)
    (hj : l[j]? = some ⟨i, pc⟩) (hi : i = j) (hf : f pc = false) (hf2 : f pc2 = true) :
    ∀ (j2 : Nat) (wk : Worker), (l.set j ⟨i, pc2⟩)[j2]? = some wk →
      (log ++ [key i]).count (key j2) = if f wk.pc then 1 else 0 := by
  intro j2 wk h
  rw [List.count_append, List.count_singleton]
  rcases getElem?_set_cases l j j2 _ _ wk hj h with ⟨e, hx⟩ | ⟨e, hx⟩
  · have h0 := hinv j _ hj
    simp only [hf, Bool.false_eq_true, if_false] at h0
    rw [hx, e, h0, hi]
    simp [hf2]
  · have h0 := hinv j2 wk hx
    have hne : ¬ (key i == key j2) = true := by
      intro hk
      have := hkey _ _ (by simpa using hk)
      exact e (by omega)
    rw [h0, if_neg hne]
    rfl

theorem once_append {α : Type} [BEq α] [LawfulBEq α] (f : WorkerPc → Bool) (key : Nat → α)
    (bound : α → Nat) (hbound : ∀ a, bound (key a) = a)
    (log : List α) (l : List Worker) (i : Nat) (pc : WorkerPc)
    (hinv : ∀ (j : Nat) (wk : Worker), l[j]? = some wk → log.count (key j) = if f wk.pc then 1 else 0)
    (hknown : ∀ x ∈ log, bound x < l.length) (hf : f pc = false) :
    ∀ (j2 : Nat) (wk : Worker), (l ++ [⟨i, pc⟩])[j2]? = some wk →
      log.count (key j2) = if f wk.pc then 1 else 0 := by
  intro j2 wk h
  rw [List.getElem?_append] at h
  by_cases hlt : j2 < l.length
  · simp only [hlt, if_true] at h
    exact hinv j2 wk h
  · simp only [hlt, if_false] at h
    have hz : j2 - l.length = 0 := by
      by_contra hne
      have : ([⟨i, pc⟩] : List Worker)[j2 - l.length]? = none :=
        List.getElem?_eq_none (by simp; omega)
      rw [this] at h
      cases h
    rw [hz] at h
    simp only [List.getElem?_cons_zero, Option.some.injEq] at h
    rw [← h]
    simp only [hf, Bool.false_eq_true, if_false]
    apply List.count_eq_zero_of_not_mem
    intro hmem
    have := hknown _ hmem
    rw [hbound] at this
    omega

/-- The invariant is kept when one worker moves on, provided the buffer, the
counter and the two records are updated to match. -/
theorem inv_worker_move (w : PoolWorld) (s t : PoolState) (j i : Nat) (pc pc2 : WorkerPc)
    (hi : PoolInv w s) (hj : s.workers[j]? = some ⟨i, pc⟩)
    (hmain : t.main = s.main) (hworkers : t.workers = s.workers.set j ⟨i, pc2⟩)
    (hpan : t.panicked = false)
    (hslots : t.control + (if pc.holding then 1 else 0) =
      s.control + (if pc2.holding then 1 else 0))
    (hcap : t.control ≤ controlCap)
    (hwg : t.wg + (if pc.pending then 1 else 0) = s.wg + (if pc2.pending then 1 else 0))
    (hret : s.main = .returned → t.wg = 0)
    (hcalls : (t.calls = s.calls ∧ pc2.called = pc.called) ∨
      (t.calls = s.calls ++ [(i, false)] ∧ pc.called = false ∧ pc2.called = true))
    (hdone : (t.completed = s.completed ∧ pc2.refreshed = pc.refreshed) ∨
      (t.completed = s.completed ++ [i] ∧ pc.refreshed = false ∧ pc2.refreshed = true)) :
    PoolInv w t := by
  have hlen : t.workers.length = s.workers.length := by rw [hworkers, List.length_set]
  have hij : i = j := hi.args j _ hj
  have hjlt : j < s.workers.length := (List.getElem?_eq_some.1 hj).1
  have hcH := countP_set_add (fun wk : Worker => wk.pc.holding) s.workers j ⟨i, pc⟩ ⟨i, pc2⟩ hj
  have hcP := countP_set_add (fun wk : Worker => wk.pc.pending) s.workers j ⟨i, pc⟩ ⟨i, pc2⟩ hj
  simp only [] at hcH hcP
  refine
    { running := hpan
      args := ?_
      atLoop := ?_
      atSpawn := ?_
      atWait := ?_
      atReturned := ?_
      slots := ?_
      counter := ?_
      callsOnce := ?_
      callsKnown := ?_
      doneOnce := ?_
      doneKnown := ?_ }
  · rw [hworkers]
    exact args_set s.workers j i pc pc2 hi.args hj
  · intro i2 h2
    rw [hlen]
    exact hi.atLoop i2 (hmain ▸ h2)
  · intro i2 h2
    rw [hlen]
    exact hi.atSpawn i2 (hmain ▸ h2)
  · intro h2
    rw [hlen]
    exact hi.atWait (hmain ▸ h2)
  · intro h2
    rw [hlen]
    exact ⟨(hi.atReturned (hmain ▸ h2)).1, hret (hmain ▸ h2)⟩
  · have h1 := hi.slots.1
    unfold PoolState.inFlight at h1 ⊢
    rw [hworkers]
    exact ⟨by omega, hcap⟩
  · have h1 := hi.counter
    rw [hworkers, hmain]
    omega
  · rw [hworkers]
    rcases hcalls with ⟨hc, hf⟩ | ⟨hc, hf, hf2⟩
    · rw [hc]
      exact once_set_same (fun pc => pc.called) (fun n => (n, false)) s.calls s.workers j i pc pc2
        hi.callsOnce hj hf
    · rw [hc]
      exact once_set_add (fun pc => pc.called) (fun n => (n, false))
        (fun a b hab => by simpa using hab) s.calls s.workers j i pc pc2
        hi.callsOnce hj hij hf hf2
  · intro x hx
    rw [hlen]
    rcases hcalls with ⟨hc, -⟩ | ⟨hc, -, -⟩
    · rw [hc] at hx
      exact hi.callsKnown x hx
    · rw [hc, List.mem_append, List.mem_singleton] at hx
      rcases hx with hx | hx
      · exact hi.callsKnown x hx
      · rw [hx]
        exact ⟨rfl, by simp only []; omega⟩
  · rw [hworkers]
    rcases hdone with ⟨hc, hf⟩ | ⟨hc, hf, hf2⟩
    · rw [hc]
      exact once_set_same (fun pc => pc.refreshed) (fun n => n) s.completed s.workers j i pc pc2
        hi.doneOnce hj hf
    · rw [hc]
      exact once_set_add (fun pc => pc.refreshed) (fun n => n)
        (fun a b hab => hab) s.completed s.workers j i pc pc2
        hi.doneOnce hj hij hf hf2
  · intro x hx
    rw [hlen]
    rcases hdone with ⟨hc, -⟩ | ⟨hc, -, -⟩
    · rw [hc] at hx
      exact hi.doneKnown x hx
    · rw [hc, List.mem_append, List.mem_singleton] at hx
      rcases hx with hx | hx
      · exact hi.doneKnown x hx
      · rw [hx]
        omega

theorem workers_le_subs (w : PoolWorld) (s : PoolState) (hi : PoolInv w s) :
    s.workers.length ≤ w.subs.length := by
  cases hm : s.main with
  | loop i => have := hi.atLoop i hm; omega
  | spawn i => have := hi.atSpawn i hm; omega
  | wait => have := hi.atWait hm; omega
  | returned => have := (hi.atReturned hm).1; omega

theorem pending_pos (s : PoolState) (j i : Nat) (pc : WorkerPc)
    (hj : s.workers[j]? = some ⟨i, pc⟩) (hp : pc.pending = true) :
    0 < s.workers.countP (fun wk => wk.pc.pending) :=
  List.countP_pos_iff.2 ⟨⟨i, pc⟩, List.mem_iff_getElem?.2 ⟨j, hj⟩, hp⟩

theorem init_inv (w : PoolWorld) : PoolInv w PoolState.init := by
  refine
    { running := rfl
      args := ?_
      atLoop := ?_
      atSpawn := ?_
      atWait := ?_
      atReturned := ?_
      slots := ?_
      counter := rfl
      callsOnce := ?_
      callsKnown := ?_
      doneOnce := ?_
      doneKnown := ?_ }
  · intro j wk h; simp [PoolState.init] at h
  · intro i h
    simp only [PoolState.init, MainPc.loop.injEq] at h
    subst h
    exact ⟨rfl, Nat.zero_le _⟩
  · intro i h; simp [PoolState.init] at h
  · intro h; simp [PoolState.init] at h
  · intro h; simp [PoolState.init] at h
  · exact ⟨rfl, by decide⟩
  · intro j wk h; simp [PoolState.init] at h
  · intro x h; simp [PoolState.init] at h
  · intro j wk h; simp [PoolState.init] at h
  · intro x h; simp [PoolState.init] at h

theorem workerStep_inv (w : PoolWorld) (j : Nat) (s t : PoolState)
    (h : workerStep w j s = some t) (hi : PoolInv w s) : PoolInv w t := by
  obtain ⟨i, pc, hj, hcase⟩ := workerStep_cases w j s t h
  have hcap := hi.slots.2
  have hij : i = j := hi.args j _ hj
  have hjlt : j < s.workers.length := (List.getElem?_eq_some.1 hj).1
  rcases hcase with ⟨hpc, hc, ht⟩ | ⟨hpc, ht⟩ | ⟨hpc, line, ht⟩ | ⟨hpc, hsub, ht⟩ |
    ⟨hpc, hwg, ht⟩ | ⟨hpc, hwg, ht⟩ | ⟨hpc, hc, ht⟩
  · subst hpc ht
    exact inv_worker_move w s _ j i .acquire .call hi hj rfl rfl hi.running
      (by simp [WorkerPc.holding]) (by simp only []; omega) (by simp [WorkerPc.pending])
      (fun hr => (hi.atReturned hr).2) (Or.inl ⟨rfl, rfl⟩) (Or.inl ⟨rfl, rfl⟩)
  · subst hpc ht
    exact inv_worker_move w s _ j i .call .refreshing hi hj rfl rfl hi.running
      (by simp [WorkerPc.holding]) hcap (by simp [WorkerPc.pending])
      (fun hr => (hi.atReturned hr).2) (Or.inr ⟨rfl, rfl, rfl⟩) (Or.inl ⟨rfl, rfl⟩)
  · subst hpc ht
    exact inv_worker_move w s _ j i .refreshing .signal hi hj rfl rfl hi.running
      (by simp [WorkerPc.holding]) hcap (by simp [WorkerPc.pending])
      (fun hr => (hi.atReturned hr).2) (Or.inl ⟨rfl, rfl⟩) (Or.inr ⟨rfl, rfl, rfl⟩)
  · -- `subs[i]` is in range: the worker was started with `i < lenSubs`
    exfalso
    have hle := workers_le_subs w s hi
    have hlt : i < w.subs.length := by omega
    rw [List.getElem?_eq_none_iff] at hsub
    omega
  · -- the counter is positive before `wg.Done()`
    exfalso
    subst hpc
    have hpos := pending_pos s j i .signal hj rfl
    have := hi.counter
    omega
  · subst hpc ht
    have hpos := pending_pos s j i .signal hj rfl
    have hcnt := hi.counter
    exact inv_worker_move w s _ j i .signal .release hi hj rfl rfl hi.running
      (by simp [WorkerPc.holding]) hcap (by simp [WorkerPc.pending]; omega)
      (fun hr => absurd (hi.atReturned hr).2 hwg) (Or.inl ⟨rfl, rfl⟩) (Or.inl ⟨rfl, rfl⟩)
  · subst hpc ht
    exact inv_worker_move w s _ j i .release .finished hi hj rfl rfl hi.running
      (by simp [WorkerPc.holding]; omega) (by simp only []; omega) (by simp [WorkerPc.pending])
      (fun hr => (hi.atReturned hr).2) (Or.inl ⟨rfl, rfl⟩) (Or.inl ⟨rfl, rfl⟩)

theorem mainStep_inv (w : PoolWorld) (s t : PoolState)
    (h : mainStep w s = some t) (hi : PoolInv w s) : PoolInv w t := by
  rcases mainStep_cases w s t h with ⟨i, hm, hlt, ht⟩ | ⟨i, hm, hge, ht⟩ | ⟨i, hm, ht⟩ |
    ⟨hm, hwg, ht⟩
  · -- `wg.Add(1)`
    subst ht
    have hcnt := hi.counter
    rw [hm] at hcnt
    exact
      { running := hi.running
        args := hi.args
        atLoop := fun i2 h2 => by simp at h2
        atSpawn := fun i2 h2 => by
          simp only [MainPc.spawn.injEq] at h2
          subst h2
          exact ⟨(hi.atLoop i hm).1, hlt⟩
        atWait := fun h2 => by simp at h2
        atReturned := fun h2 => by simp at h2
        slots := hi.slots
        counter := by
          simp only [MainPc.added] at hcnt ⊢
          omega
        callsOnce := hi.callsOnce
        callsKnown := hi.callsKnown
        doneOnce := hi.doneOnce
        doneKnown := hi.doneKnown }
  · -- the loop ends
    subst ht
    have hcnt := hi.counter
    rw [hm] at hcnt
    exact
      { running := hi.running
        args := hi.args
        atLoop := fun i2 h2 => by simp at h2
        atSpawn := fun i2 h2 => by simp at h2
        atWait := fun _ => by
          have := hi.atLoop i hm
          simp only []
          omega
        atReturned := fun h2 => by simp at h2
        slots := hi.slots
        counter := by
          simp only [MainPc.added] at hcnt ⊢
          omega
        callsOnce := hi.callsOnce
        callsKnown := hi.callsKnown
        doneOnce := hi.doneOnce
        doneKnown := hi.doneKnown }
  · -- the `go` statement
    subst ht
    have hcnt := hi.counter
    rw [hm] at hcnt
    have hlen := hi.atSpawn i hm
    exact
      { running := hi.running
        args := fun j wk hjw => by
          simp only [] at hjw
          rw [List.getElem?_append] at hjw
          by_cases hlt : j < s.workers.length
          · simp only [hlt, if_true] at hjw
            exact hi.args j wk hjw
          · simp only [hlt, if_false] at hjw
            have hz : j - s.workers.length = 0 := by
              by_contra hne
              have : ([⟨i, .acquire⟩] : List Worker)[j - s.workers.length]? = none :=
                List.getElem?_eq_none (by simp; omega)
              rw [this] at hjw
              cases hjw
            rw [hz] at hjw
            simp only [List.getElem?_cons_zero, Option.some.injEq] at hjw
            rw [← hjw]
            simp only []
            omega
        atLoop := fun i2 h2 => by
          simp only [MainPc.loop.injEq] at h2
          subst h2
          simp only [List.length_append, List.length_singleton]
          omega
        atSpawn := fun i2 h2 => by simp at h2
        atWait := fun h2 => by simp at h2
        atReturned := fun h2 => by simp at h2
        slots := by
          have := hi.slots
          unfold PoolState.inFlight at this ⊢
          simp only [List.countP_append, List.countP_cons, List.countP_nil, WorkerPc.holding]
          simpa using this
        counter := by
          simp only [MainPc.added, List.countP_append, List.countP_cons, List.countP_nil,
            WorkerPc.pending] at hcnt ⊢
          simpa using hcnt
        callsOnce := once_append (fun pc => pc.called) (fun n => (n, false)) (fun x => x.1)
          (fun _ => rfl) s.calls s.workers i .acquire hi.callsOnce
          (fun x hx => (hi.callsKnown x hx).2) rfl
        callsKnown := fun x hx => by
          have := hi.callsKnown x hx
          simp only [List.length_append, List.length_singleton]
          exact ⟨this.1, by omega⟩
        doneOnce := once_append (fun pc => pc.refreshed) (fun n => n) (fun x => x)
          (fun _ => rfl) s.completed s.workers i .acquire hi.doneOnce hi.doneKnown rfl
        doneKnown := fun x hx => by
          have := hi.doneKnown x hx
          simp only [List.length_append, List.length_singleton]
          omega }
  · -- `wg.Wait()` returns
    subst ht
    have hcnt := hi.counter
    rw [hm] at hcnt
    exact
      { running := hi.running
        args := hi.args
        atLoop := fun i2 h2 => by simp at h2
        atSpawn := fun i2 h2 => by simp at h2
        atWait := fun h2 => by simp at h2
        atReturned := fun _ => ⟨hi.atWait hm, hwg⟩
        slots := hi.slots
        counter := by
          simp only [MainPc.added] at hcnt ⊢
          omega
        callsOnce := hi.callsOnce
        callsKnown := hi.callsKnown
        doneOnce := hi.doneOnce
        doneKnown := hi.doneKnown }

theorem poolStep_inv (w : PoolWorld) (a : PoolActor) (s t : PoolState)
    (h : poolStep w a s = some t) (hi : PoolInv w s) : PoolInv w t := by
  unfold poolStep at h
  rw [hi.running] at h
  simp only [Bool.false_eq_true, if_false] at h
  cases a with
  | main => exact mainStep_inv w s t h hi
  | worker j => exact workerStep_inv w j s t h hi

theorem poolExec_inv (w : PoolWorld) (schedule : List PoolActor) :
    ∀ (s t : PoolState), poolExec w schedule s = some t → PoolInv w s → PoolInv w t := by
  induction schedule with
  | nil =>
    intro s t h hi
    simp only [poolExec, Option.some.injEq] at h
    subst h
    exact hi
  | cons a rest ih =>
    intro s t h hi
    rw [poolExec] at h
    cases hstep : poolStep w a s with
    | none => simp [hstep] at h
    | some m =>
      simp only [hstep] at h
      exact ih m t h (poolStep_inv w a s m hstep hi)

/-- C1: in every state that `updateSubscriptions` reaches, for every list of
subscriptions and every schedule of its goroutines, at most 2 workers are
between their send on `control` and their receive from it, so at most 2 are
inside `service.UpdateSubscription`; the buffer of `control` holds exactly one
element for each of them. -/
theorem at_most_two_in_flight (w : PoolWorld) (schedule : List PoolActor) (s : PoolState)
    (h : poolExec w schedule PoolState.init = some s) :
    s.inFlight ≤ 2 ∧ s.refreshing ≤ 2 ∧ s.control = s.inFlight := by
  have hi := poolExec_inv w schedule PoolState.init s h (init_inv w)
  have h1 := hi.slots
  unfold controlCap at h1
  have h2 : s.refreshing ≤ s.inFlight := by
    unfold PoolState.refreshing PoolState.inFlight
    apply List.countP_mono_left
    intro x _ hx
    have : x.pc = .refreshing := by simpa using hx
    rw [this]
    rfl
  exact ⟨by omega, by omega, h1.1⟩

/-- C1, witness: with three subscriptions, once two workers hold the two
slots the third cannot take one. -/
theorem at_most_two_in_flight_witness :
    poolExec threeSubs twoInFlight PoolState.init = some twoInFlightState ∧
      (twoInFlightState.inFlight ≤ 2 ∧ twoInFlightState.refreshing ≤ 2 ∧
        twoInFlightState.control = twoInFlightState.inFlight) ∧
      twoInFlightState.inFlight = 2 ∧
      poolStep threeSubs (.worker 2) twoInFlightState = none :=
  ⟨by decide,
    at_most_two_in_flight threeSubs twoInFlight twoInFlightState (by decide),
    by decide, by decide⟩

theorem count_inst {α : Type} [DecidableEq α] (inst : BEq α) [@LawfulBEq α inst] (a : α)
    (l : List α) : @List.count α inst a l = @List.count α instBEqOfDecidableEq a l := by
  induction l with
  | nil => rfl
  | cons x rest ih =>
    rw [@List.count_cons α inst, @List.count_cons α instBEqOfDecidableEq, ih]
    by_cases h : x = a
    · subst h; simp
    · have h1 : (@BEq.beq α inst x a) = false := by
        cases hb : (@BEq.beq α inst x a) with
        | false => rfl
        | true => exact absurd (@eq_of_beq α inst _ _ _ hb) h
      simp [h1, h]

theorem count_range_map {α : Type} [DecidableEq α] (key : Nat → α)
    (hkey : Function.Injective key) (n : Nat) (x : α) :
    @List.count α instBEqOfDecidableEq x ((List.range n).map key) =
      if ∃ j, j < n ∧ key j = x then 1 else 0 := by
  rw [List.count_eq_of_nodup (List.Nodup.map hkey (List.nodup_range n))]
  simp only [List.mem_map, List.mem_range]

/-- Each record holds every started index at most once, and only started
indices. -/
theorem count_le_one_of_once {α : Type} [DecidableEq α] (inst : BEq α) [@LawfulBEq α inst]
    (f : WorkerPc → Bool) (key : Nat → α) (bound : α → Nat)
    (hround : ∀ x, ∀ n, bound x = n → x ∈ Set.range key → key n = x)
    (log : List α) (l : List Worker)
    (hinv : ∀ (j : Nat) (wk : Worker), l[j]? = some wk →
      @List.count α inst (key j) log = if f wk.pc then 1 else 0)
    (hknown : ∀ x ∈ log, x ∈ Set.range key ∧ bound x < l.length) (x : α) :
    @List.count α inst x log ≤ 1 := by
  by_cases hx : x ∈ log
  · obtain ⟨hr, hlt⟩ := hknown x hx
    have hk := hround x (bound x) rfl hr
    obtain ⟨wk, hwk⟩ : ∃ wk, l[bound x]? = some wk :=
      ⟨l[bound x], List.getElem?_eq_getElem hlt⟩
    have := hinv (bound x) wk hwk
    rw [hk] at this
    rw [this]
    split <;> omega
  · rw [@List.count_eq_zero_of_not_mem α inst _ _ _ hx]
    omega

theorem records_nodup (w : PoolWorld) (s : PoolState) (hi : PoolInv w s) :
    s.calls.Nodup ∧ s.completed.Nodup := by
  constructor
  · rw [List.nodup_iff_count_le_one]
    intro x
    rw [← count_inst]
    refine count_le_one_of_once _ (fun pc => pc.called) (fun n => (n, false)) (fun x => x.1)
      ?_ s.calls s.workers hi.callsOnce ?_ x
    · rintro ⟨a, b⟩ n hn ⟨m, hm⟩
      simp only [Prod.mk.injEq] at hm
      simp only [] at hn
      rw [← hn, ← hm.2]
    · intro y hy
      obtain ⟨h1, h2⟩ := hi.callsKnown y hy
      exact ⟨⟨y.1, by rw [← h1]⟩, h2⟩
  · rw [List.nodup_iff_count_le_one]
    intro x
    refine count_le_one_of_once _ (fun pc => pc.refreshed) (fun n => n) (fun x => x)
      ?_ s.completed s.workers hi.doneOnce ?_ x
    · intro y n hn _
      exact hn.symm
    · intro y hy
      exact ⟨⟨y, rfl⟩, hi.doneKnown y hy⟩

theorem not_pending_cases (pc : WorkerPc) (h : pc.pending = false) :
    pc.called = true ∧ pc.refreshed = true := by
  cases pc <;> simp_all [WorkerPc.pending, WorkerPc.called, WorkerPc.refreshed]

/-- When `updateSubscriptions` has returned, the calls made are those with the
indices below `lenSubs`, each once and with `forced = false`, and each of them
has returned. -/
theorem returned_records (w : PoolWorld) (s : PoolState) (hi : PoolInv w s)
    (hm : s.main = .returned) :
    s.calls.Perm ((List.range w.subs.length).map (fun i => (i, false))) ∧
      s.completed.Perm (List.range w.subs.length) := by
  obtain ⟨hlen, hwg⟩ := hi.atReturned hm
  have hcnt := hi.counter
  rw [hm, hwg] at hcnt
  have hzero : s.workers.countP (fun wk => wk.pc.pending) = 0 := by
    simp only [MainPc.added] at hcnt
    omega
  rw [List.countP_eq_zero] at hzero
  have hall : ∀ j, j < w.subs.length →
      s.calls.count (j, false) = 1 ∧ s.completed.count j = 1 := by
    intro j hj
    have hjl : j < s.workers.length := by omega
    have hget : s.workers[j]? = some s.workers[j] := List.getElem?_eq_getElem hjl
    have hmem : s.workers[j] ∈ s.workers := List.getElem_mem hjl
    have hnp : (s.workers[j]).pc.pending = false := by
      have := hzero _ hmem
      simpa using this
    obtain ⟨hc, hr⟩ := not_pending_cases _ hnp
    have h1 := hi.callsOnce j _ hget
    have h2 := hi.doneOnce j _ hget
    rw [hc] at h1
    rw [hr] at h2
    exact ⟨by simpa using h1, by simpa using h2⟩
  constructor
  · rw [List.perm_iff_count]
    intro x
    rw [count_range_map _ (fun a b hab => by simpa using hab), ← count_inst]
    by_cases hx : ∃ j, j < w.subs.length ∧ (j, false) = x
    · obtain ⟨j, hj, rfl⟩ := hx
      rw [(hall j hj).1, if_pos ⟨j, hj, rfl⟩]
    · rw [if_neg hx]
      apply List.count_eq_zero_of_not_mem
      intro hmem
      obtain ⟨h1, h2⟩ := hi.callsKnown x hmem
      exact hx ⟨x.1, by omega, by rw [← h1]⟩
  · rw [List.perm_iff_count]
    intro x
    by_cases hx : x < w.subs.length
    · have h1 : List.count x (List.range w.subs.length) = 1 := by
        rw [List.count_eq_of_nodup (List.nodup_range _)]
        simp [hx]
      rw [(hall x hx).2, h1]
    · have h1 : List.count x (List.range w.subs.length) = 0 := by
        apply List.count_eq_zero_of_not_mem
        simp [hx]
      rw [h1]
      apply List.count_eq_zero_of_not_mem
      intro hmem
      have := hi.doneKnown x hmem
      omega

theorem workerStep_of_holding (w : PoolWorld) (s : PoolState) (j i : Nat) (pc : WorkerPc)
    (hj : s.workers[j]? = some ⟨i, pc⟩) (hh : pc.holding = true) (hc : 0 < s.control) :
    ∃ t, workerStep w j s = some t := by
  unfold workerStep
  simp only [hj]
  cases pc with
  | acquire => simp [WorkerPc.holding] at hh
  | call => exact ⟨_, rfl⟩
  | refreshing =>
    simp only []
    cases w.updateSubscription i false with
    | some err => exact ⟨_, rfl⟩
    | none =>
      simp only []
      cases w.subs[i]? with
      | some sub => exact ⟨_, rfl⟩
      | none => exact ⟨_, rfl⟩
  | signal =>
    simp only []
    split_ifs
    · exact ⟨_, rfl⟩
    · exact ⟨_, rfl⟩
  | release =>
    simp only [hc, if_true]
    exact ⟨_, rfl⟩
  | finished => simp [WorkerPc.holding] at hh

theorem workerStep_of_acquire (w : PoolWorld) (s : PoolState) (j i : Nat)
    (hj : s.workers[j]? = some ⟨i, .acquire⟩) (hc : s.control < controlCap) :
    ∃ t, workerStep w j s = some t := by
  unfold workerStep
  simp only [hj, hc, if_true]
  exact ⟨_, rfl⟩

/-- No deadlock: as long as `updateSubscriptions` has not returned, some
goroutine can take a step. -/
theorem pool_progress (w : PoolWorld) (s : PoolState) (hi : PoolInv w s)
    (hm : s.main ≠ .returned) : ∃ a t, poolStep w a s = some t := by
  have hrun := hi.running
  have hstep : ∀ a, poolStep w a s =
      match a with
      | .main => mainStep w s
      | .worker j => workerStep w j s := by
    intro a
    unfold poolStep
    rw [hrun]
    rfl
  cases hmain : s.main with
  | loop i =>
    refine ⟨.main, ?_⟩
    rw [hstep]
    simp only [mainStep, hmain]
    split_ifs
    · exact ⟨_, rfl⟩
    · exact ⟨_, rfl⟩
  | spawn i =>
    refine ⟨.main, ?_⟩
    rw [hstep]
    simp only [mainStep, hmain]
    exact ⟨_, rfl⟩
  | returned => exact absurd hmain hm
  | wait =>
    by_cases hwg : s.wg = 0
    · refine ⟨.main, ?_⟩
      rw [hstep]
      simp only [mainStep, hmain, hwg, if_true]
      exact ⟨_, rfl⟩
    · by_cases hc : 0 < s.control
      · -- a worker holds a slot: it can go on
        have hpos : 0 < s.workers.countP (fun wk => wk.pc.holding) := by
          have := hi.slots.1
          unfold PoolState.inFlight at this
          omega
        obtain ⟨wk, hmem, hh⟩ := List.countP_pos_iff.1 hpos
        obtain ⟨j, hj⟩ := List.mem_iff_getElem?.1 hmem
        obtain ⟨i, pc⟩ := wk
        obtain ⟨t, ht⟩ := workerStep_of_holding w s j i pc hj hh hc
        exact ⟨.worker j, t, by rw [hstep]; exact ht⟩
      · -- no worker holds a slot: a waiting worker can take one
        have hcnt := hi.counter
        rw [hmain] at hcnt
        simp only [MainPc.added] at hcnt
        have hpos : 0 < s.workers.countP (fun wk => wk.pc.pending) := by omega
        obtain ⟨wk, hmem, hp⟩ := List.countP_pos_iff.1 hpos
        obtain ⟨j, hj⟩ := List.mem_iff_getElem?.1 hmem
        obtain ⟨i, pc⟩ := wk
        have hnone : s.workers.countP (fun wk => wk.pc.holding) = 0 := by
          have := hi.slots.1
          unfold PoolState.inFlight at this
          omega
        rw [List.countP_eq_zero] at hnone
        have hnh := hnone _ hmem
        have hpc : pc = .acquire := by
          cases pc <;> simp_all [WorkerPc.holding, WorkerPc.pending]
        subst hpc
        obtain ⟨t, ht⟩ := workerStep_of_acquire w s j i hj (by unfold controlCap; omega)
        exact ⟨.worker j, t, by rw [hstep]; exact ht⟩

theorem sum_map_set_add {α : Type} (f : α → Nat) (l : List α) :
    ∀ (j : Nat) (a b : α), l[j]? = some a →
      ((l.set j b).map f).sum + f a = (l.map f).sum + f b := by
  induction l with
  | nil => intro j a b h; simp at h
  | cons x rest ih =>
    intro j a b h
    cases j with
    | zero =>
      simp only [List.getElem?_cons_zero, Option.some.injEq] at h
      subst h
      simp only [List.set_cons_zero, List.map_cons, List.sum_cons]
      omega
    | succ j =>
      simp only [List.getElem?_cons_succ] at h
      have := ih j a b h
      simp only [List.set_cons_succ, List.map_cons, List.sum_cons]
      omega

/-- Every step uses up one of the steps that are left. -/
theorem pool_measure_step (w : PoolWorld) (a : PoolActor) (s t : PoolState)
    (hi : PoolInv w s) (h : poolStep w a s = some t) :
    poolMeasure w t + 1 = poolMeasure w s := by
  have hit := poolStep_inv w a s t h hi
  unfold poolStep at h
  rw [hi.running] at h
  simp only [Bool.false_eq_true, if_false] at h
  unfold poolMeasure
  cases a with
  | main =>
    rcases mainStep_cases w s t h with ⟨i, hm, hlt, ht⟩ | ⟨i, hm, hge, ht⟩ | ⟨i, hm, ht⟩ |
      ⟨hm, hwg, ht⟩
    · subst ht
      simp only [hm, MainPc.remaining]
      omega
    · subst ht
      simp only [hm, MainPc.remaining]
      have : w.subs.length - i = 0 := by omega
      rw [this]
      omega
    · subst ht
      have := (hi.atSpawn i hm).2
      simp only [hm, MainPc.remaining, List.map_append, List.map_cons, List.map_nil,
        List.sum_append, List.sum_cons, List.sum_nil, WorkerPc.remaining]
      omega
    · subst ht
      simp only [hm, MainPc.remaining]
      omega
  | worker j =>
    obtain ⟨i, pc, hj, hcase⟩ := workerStep_cases w j s t h
    have hsum := fun pc2 : WorkerPc =>
      sum_map_set_add (fun wk : Worker => wk.pc.remaining) s.workers j ⟨i, pc⟩ ⟨i, pc2⟩ hj
    simp only [] at hsum
    rcases hcase with ⟨hpc, hc, ht⟩ | ⟨hpc, ht⟩ | ⟨hpc, line, ht⟩ | ⟨hpc, hsub, ht⟩ |
      ⟨hpc, hwg, ht⟩ | ⟨hpc, hwg, ht⟩ | ⟨hpc, hc, ht⟩
    · subst hpc ht
      have := hsum .call
      simp only [WorkerPc.remaining] at this ⊢
      omega
    · subst hpc ht
      have := hsum .refreshing
      simp only [WorkerPc.remaining] at this ⊢
      omega
    · subst hpc ht
      have := hsum .signal
      simp only [WorkerPc.remaining] at this ⊢
      omega
    · subst ht
      have := hit.running
      simp at this
    · subst ht
      have := hit.running
      simp at this
    · subst hpc ht
      have := hsum .release
      simp only [WorkerPc.remaining] at this ⊢
      omega
    · subst hpc ht
      have := hsum .finished
      simp only [WorkerPc.remaining] at this ⊢
      omega

theorem pool_measure_exec (w : PoolWorld) (schedule : List PoolActor) :
    ∀ (s t : PoolState), PoolInv w s → poolExec w schedule s = some t →
      schedule.length + poolMeasure w t = poolMeasure w s := by
  induction schedule with
  | nil =>
    intro s t _ h
    simp only [poolExec, Option.some.injEq] at h
    subst h
    simp
  | cons a rest ih =>
    intro s t hi h
    rw [poolExec] at h
    cases hstep : poolStep w a s with
    | none => simp [hstep] at h
    | some m =>
      simp only [hstep] at h
      have h1 := pool_measure_step w a s m hi hstep
      have h2 := ih m t (poolStep_inv w a s m hstep hi) h
      simp only [List.length_cons]
      omega

/-- From every state of `updateSubscriptions` some schedule leads to its
return. -/
theorem pool_returns (w : PoolWorld) :
    ∀ (n : Nat) (s : PoolState), PoolInv w s → poolMeasure w s = n →
      ∃ rest t, poolExec w rest s = some t ∧ t.main = .returned := by
  intro n
  induction n using Nat.strong_induction_on with
  | _ n ih =>
    intro s hi hn
    by_cases hm : s.main = .returned
    · exact ⟨[], s, rfl, hm⟩
    · obtain ⟨a, m, hstep⟩ := pool_progress w s hi hm
      have hdec := pool_measure_step w a s m hi hstep
      obtain ⟨rest, t, hrest, ht⟩ :=
        ih (poolMeasure w m) (by omega) m (poolStep_inv w a s m hstep hi) rfl
      refine ⟨a :: rest, t, ?_, ht⟩
      rw [poolExec, hstep]
      exact hrest

theorem poolMeasure_init (w : PoolWorld) :
    poolMeasure w PoolState.init = 7 * w.subs.length + 2 := by
  simp [poolMeasure, PoolState.init, MainPc.remaining]

/-- C2: for every list of subscriptions, every assignment of results to the
refreshes and every schedule of the goroutines of `updateSubscriptions`: no
goroutine panics, no call of `service.UpdateSubscription` is made twice, every
call has `forced = false` and an index below `lenSubs`, and the schedule has at
most `7 * lenSubs + 2` steps; when `updateSubscriptions` has returned, the
calls made are exactly those for the indices `0 .. lenSubs - 1`, each once, and
each of them has returned; as long as it has not returned, some goroutine can
take a step, and some continuation leads to its return; with no subscription
it returns after two steps of its own, without any call. -/
theorem updateSubscriptions_barrier (w : PoolWorld) :
    (∀ (schedule : List PoolActor) (s : PoolState),
      poolExec w schedule PoolState.init = some s →
        s.panicked = false ∧ s.calls.Nodup ∧ s.completed.Nodup ∧
        (∀ x ∈ s.calls, x.2 = false ∧ x.1 < w.subs.length) ∧
        schedule.length + poolMeasure w s = 7 * w.subs.length + 2 ∧
        (s.main = .returned →
          s.calls.Perm ((List.range w.subs.length).map (fun i => (i, false))) ∧
          s.completed.Perm (List.range w.subs.length)) ∧
        (s.main ≠ .returned → ∃ a t, poolStep w a s = some t) ∧
        (∃ rest t, poolExec w rest s = some t ∧ t.main = .returned)) ∧
    (w.subs = [] →
      poolExec w [.main, .main] PoolState.init =
        some { PoolState.init with main := .returned }) := by
  constructor
  · intro schedule s h
    have hi := poolExec_inv w schedule PoolState.init s h (init_inv w)
    have hnd := records_nodup w s hi
    have hmeasure := pool_measure_exec w schedule PoolState.init s (init_inv w) h
    rw [poolMeasure_init] at hmeasure
    refine ⟨hi.running, hnd.1, hnd.2, ?_, hmeasure, returned_records w s hi,
      pool_progress w s hi, pool_returns w _ s hi rfl⟩
    intro x hx
    have := hi.callsKnown x hx
    have hle := workers_le_subs w s hi
    exact ⟨this.1, by omega⟩
  · intro h
    simp [poolExec, poolStep, mainStep, PoolState.init, h]

/-- C2, witness: three subscriptions, the second of which fails; when
`updateSubscriptions` returns, the three refreshes have been called and have
returned, each once, while two workers have not yet given their slot back. -/
theorem updateSubscriptions_barrier_witness :
    poolExec threeSubs fullRun PoolState.init = some fullRunState ∧
      fullRunState.main = .returned ∧
      fullRunState.calls.Perm [(0, false), (1, false), (2, false)] ∧
      fullRunState.completed.Perm [0, 1, 2] ∧
      fullRunState.calls = [(1, false), (2, false), (0, false)] ∧
      fullRunState.inFlight = 2 :=
  ⟨by decide, by decide,
    (((updateSubscriptions_barrier threeSubs).1 fullRun fullRunState (by decide)).2.2.2.2.2.1
      (by decide)).1,
    (((updateSubscriptions_barrier threeSubs).1 fullRun fullRunState (by decide)).2.2.2.2.2.1
      (by decide)).2,
    by decide, by decide⟩

end V2rayA
